import Mathlib

/-
Verification development for the deno-eslint Resolver Engine
(src/VfsHost.ts, src/createDenoProgram.ts, src/memoizedFetch.ts).

The TypeScript code is shallowly embedded as executable Lean functions.
External platform capabilities (the WHATWG URL constructor, Deno file
reads, fetch, the TypeScript parser and the regex scans that locate
specifier spans) are passed in as oracle functions inside a context
record `Ctx`; everything else is translated statement by statement from
the source.  Asynchrony is modelled by a deterministic state-passing
monad that records an event trace; each syntactic `await` of the source
appends an `Ev.awaitMark` event (an `await` is a potential suspension
point of the cooperative scheduler), and `Promise.all` over sibling
tasks is elaborated sequentially (resolution is deterministic in the
oracles, so the final store contents do not depend on task order; the
trace-ordering claims proved below only use marks that sit inside a
single routine).  JS string offsets are UTF-16 code units; the Lean
embedding uses character counts, which agree on the ASCII inputs used
by all witnesses.
-/

set_option maxHeartbeats 1600000

/-- JS `String.prototype.startsWith`, over character lists so that
concrete instances evaluate inside the kernel. -/
def strStartsWith (s p : String) : Bool := p.toList.isPrefixOf s.toList

/-- JS `String.prototype.endsWith`. -/
def strEndsWith (s p : String) : Bool := p.toList.isSuffixOf s.toList

/-- JS `s.slice(n)` for a non-negative index. -/
def strDrop (s : String) (n : Nat) : String := String.mk (s.toList.drop n)

/-- JS `s.slice(0, -n)`. -/
def strDropRight (s : String) (n : Nat) : String :=
  String.mk (s.toList.take (s.toList.length - n))

/-- JS `String.prototype.toLowerCase`. -/
def strLower (s : String) : String := String.mk (s.toList.map Char.toLower)

/-- JS `String.prototype.length` (code units there, characters here;
they agree on the ASCII strings all concrete instances use). -/
def strLen (s : String) : Nat := s.toList.length

/-- Embedded WHATWG URL value: the components of `URL` that VfsHost.ts
reads (`protocol` includes the trailing colon, as in JS). -/
structure Url where
  protocol : String
  host : String
  pathname : String
  href : String
deriving DecidableEq, Repr

/-- Result shape produced by the fetch closure in src/memoizedFetch.ts:
`{ text: await resp.text(), url: resp.url, headers: ... }` (header names
are lowercased there; the embedding lowercases them in `memoizedFetch`
below, so `NetResp` values supplied by the network oracle carry the raw
header list). -/
structure NetResp where
  text : String
  url : String
  headers : List (String × String)
deriving DecidableEq, Repr

/-- Cache slot of `memoizedFetch`: the memoized value plus the `date`
field used by `shouldRecalculate` (milliseconds). -/
structure CacheEntry where
  resp : NetResp
  date : Nat
deriving DecidableEq, Repr

/-- Return value of `VfsHost.#fetchFile`: `{ text, url }`. -/
structure FetchOut where
  text : String
  url : Url
deriving DecidableEq, Repr

/-- One string-literal specifier site found by the TS AST walk in
`#transformSourceFile` (static import/export declarations and dynamic
`import()` calls).  `fullStart` is `node.getFullStart()` and `endPos`
is `node.getEnd()` of the string-literal node; the source overwrites
the span `[fullStart + 2, endPos - 1)`. -/
structure Site where
  fullStart : Nat
  endPos : Nat
  text : String
deriving DecidableEq, Repr

/-- Result of the external scans of `#transformSourceFile`: the
`@jsxImportSource` pragma match (value span start, span end, value),
the triple-slash `reference path` directives (span start, span end,
path), the triple-slash `reference lib` directives, and the specifier
sites found by walking the TS syntax tree. -/
structure FileScan where
  jsxPragma : Option (Nat × Nat × String)
  refPaths : List (Nat × Nat × String)
  refLibs : List String
  importSites : List Site
deriving DecidableEq, Repr

/-- Import map object (interface ImportMap in VfsHost.ts); the
replacement URLs are kept as their `href` strings, which is the only
field the resolver reads (`replacement.href`).  Entry order is the
`Object.entries` insertion order. -/
structure ImportMap where
  imports : List (String × String)
  scopes : List (String × List (String × String))
deriving DecidableEq, Repr

/-- External-world oracles and host configuration.  `parseAbs s`
models `new URL(s)` (`none` = the constructor throws), `parseRel s b`
models `new URL(s, b)` with base href `b`, `disk` models
`Deno.readTextFile` keyed by the file URL href, `net` models a raw
`fetch` keyed by href, `scan` models the regex scans plus the TS parse
of `#transformSourceFile`, and `now` is the constant value of
`Date.now()` during the run. -/
structure Ctx where
  parseAbs : String → Option Url
  parseRel : String → String → Option Url
  disk : String → Option String
  net : String → Option NetResp
  scan : String → FileScan
  importMap : ImportMap
  defaultLibDir : Url
  metaUrl : String
  now : Nat

/-- Errors of the engine, mirroring the `throw new Error(...)` sites:
unsupported fetch protocol, failed fetch, URL constructor throw, bare
specifier, `#urlToFakePath` on a non-file/https URL, the re-wrapping
in `loadFile` and `#transformSourceFile`, and fuel exhaustion (an
artifact of the bounded embedding of the recursion). -/
inductive Err where
  | protocolUnsupported (protocol : String)
  | fetchFail (href : String)
  | urlParse (s : String)
  | bareSpecifier (specifier : String)
  | fakePathFail (protocol : String)
  | loadFailed (href : String) (inner : Err)
  | transformFailed (href : String) (inner : Err)
  | fuelOut
deriving DecidableEq, Repr

/-- Observable events of a run: a syntactic `await` (suspension point),
an actual network fetch (a cache miss inside `memoizedFetch`), a
`Deno.readTextFile` disk read, the `this.has(fakePath)` probe, the
reservation write `this.set(fakePath, "")`, and the final content
write `this.set(fakePath, file.text)`. -/
inductive Ev where
  | awaitMark
  | netFetch (href : String)
  | diskRead (href : String)
  | storeCheck (path : String) (found : Bool)
  | reserve (path : String)
  | fill (path : String) (text : String)
deriving DecidableEq, Repr

/-- Mutable state of a run: the virtual file store (the `Map` that
`VfsHost` extends, in insertion order) and the durable fetch cache of
`memoizedFetch`. -/
structure St where
  store : List (String × String)
  cache : List (String × CacheEntry)
deriving DecidableEq, Repr

/-- The empty state: a freshly constructed `VfsHost` with a cold fetch
cache. -/
def emptyS : St := ⟨[], []⟩

/-- Key membership in an association list (JS `Map.prototype.has`). -/
def hasKey (l : List (String × String)) (k : String) : Bool :=
  match l with
  | [] => false
  | (k', _) :: rest => k' == k || hasKey rest k

/-- Lookup in an association list (JS `Map.prototype.get`). -/
def getKey (l : List (String × String)) (k : String) : Option String :=
  match l with
  | [] => none
  | (k', v) :: rest => if k' == k then some v else getKey rest k

/-- Insert-or-update preserving insertion order (JS `Map.prototype.set`). -/
def setKey (l : List (String × String)) (k v : String) : List (String × String) :=
  match l with
  | [] => [(k, v)]
  | (k', v') :: rest => if k' == k then (k, v) :: rest else (k', v') :: setKey rest k v

/-- Lookup in the fetch cache. -/
def cacheLookup (l : List (String × CacheEntry)) (k : String) : Option CacheEntry :=
  match l with
  | [] => none
  | (k', v) :: rest => if k' == k then some v else cacheLookup rest k

/-- Insert-or-update in the fetch cache. -/
def cacheSet (l : List (String × CacheEntry)) (k : String) (v : CacheEntry) :
    List (String × CacheEntry) :=
  match l with
  | [] => [(k, v)]
  | (k', v') :: rest => if k' == k then (k, v) :: rest else (k', v') :: cacheSet rest k v

/-- A computation of the engine: state in, state out, the list of
events it emitted, and a result or a thrown error. -/
def M (α : Type) : Type := St → St × List Ev × Except Err α

/-- Return (`pure`). -/
def mret {α : Type} (a : α) : M α := fun st => (st, [], .ok a)

/-- Sequencing; a thrown error short-circuits, all emitted events are
kept in order. -/
def mbind {α β : Type} (m : M α) (f : α → M β) : M β := fun st =>
  match m st with
  | (st', tr, .ok a) =>
    match f a st' with
    | (st'', tr', r) => (st'', tr ++ tr', r)
  | (st', tr, .error e) => (st', tr, .error e)

/-- `throw new Error(...)`. -/
def mthrow {α : Type} (e : Err) : M α := fun st => (st, [], .error e)

/-- `try { ... } catch (err) { ... }`: state changes and events of the
failed body are kept (JS side effects survive a catch). -/
def mtry {α : Type} (m : M α) (h : Err → M α) : M α := fun st =>
  match m st with
  | (st', tr, .ok a) => (st', tr, .ok a)
  | (st', tr, .error e) =>
    match h e st' with
    | (st'', tr', r) => (st'', tr ++ tr', r)

/-- Emit one event. -/
def memit (e : Ev) : M Unit := fun st => (st, [e], .ok ())

/-- Lift a pure fallible computation (no events, no state change). -/
def mliftE {α : Type} (x : Except Err α) : M α := fun st => (st, [], x)

/-- Sequential elaboration of `Promise.all(xs.map(f))`. -/
def mmapM {α β : Type} (f : α → M β) : List α → M (List β)
  | [] => mret []
  | a :: rest => mbind (f a) fun b => mbind (mmapM f rest) fun bs => mret (b :: bs)

/-- `this.has(path)` — emits a `storeCheck` event carrying the answer. -/
def storeHas (p : String) : M Bool := fun st =>
  (st, [.storeCheck p (hasKey st.store p)], .ok (hasKey st.store p))

/-- `this.set(fakePath, "")` — the reservation write of `loadFile`
(line 89, comment `prevent infinite recursion`). -/
def storeReserve (p : String) : M Unit := fun st =>
  (⟨setKey st.store p "", st.cache⟩, [.reserve p], .ok ())

/-- `this.set(fakePath, file.text)` — the final content write of
`loadFile` (line 94). -/
def storeFill (p t : String) : M Unit := fun st =>
  (⟨setKey st.store p t, st.cache⟩, [.fill p t], .ok ())

/-- Lowercasing of header names done by the fetch closure in
src/memoizedFetch.ts. -/
def lowerHeaders (hs : List (String × String)) : List (String × String) :=
  hs.map (fun kv => (strLower kv.1, kv.2))

/-- The memoized fetch of src/memoizedFetch.ts: cached by URL, a hit
older than the 24h freshness window (`shouldRecalculate`) is refetched,
otherwise the cached value is returned with no network activity.  A
failed fetch (non-ok response) throws and caches nothing. -/
def memoizedFetch (c : Ctx) (href : String) : M NetResp := fun st =>
  match cacheLookup st.cache href with
  | some e =>
    if c.now - e.date > 86400000 then
      match c.net href with
      | some r =>
        let r' : NetResp := ⟨r.text, r.url, lowerHeaders r.headers⟩
        (⟨st.store, cacheSet st.cache href ⟨r', c.now⟩⟩, [.netFetch href], .ok r')
      | none => (st, [.netFetch href], .error (.fetchFail href))
    else
      (st, [], .ok e.resp)
  | none =>
    match c.net href with
    | some r =>
      let r' : NetResp := ⟨r.text, r.url, lowerHeaders r.headers⟩
      (⟨st.store, cacheSet st.cache href ⟨r', c.now⟩⟩, [.netFetch href], .ok r')
    | none => (st, [.netFetch href], .error (.fetchFail href))

/-- The regex `/\.[cm]?[tj]sx?$/` of `#fetchFile` line 130: does the
string end in a recognizable script extension? -/
def hasScriptExt (s : String) : Bool :=
  [".ts", ".js", ".tsx", ".jsx", ".cts", ".mts", ".cjs", ".mjs",
   ".ctsx", ".mtsx", ".cjsx", ".mjsx"].any (fun suf => strEndsWith s suf)

/-- `#urlToFakePath` (VfsHost.ts lines 151–160). -/
def urlToFakePathE (u : Url) : Except Err String :=
  if u.protocol == "file:" then .ok u.pathname
  else if u.protocol == "https:" then .ok ("/https/" ++ u.host ++ u.pathname)
  else .error (.fakePathFail u.protocol)

/-- `new URL(s)` with a thrown constructor mapped to an error. -/
def parseAbsE (c : Ctx) (s : String) : Except Err Url :=
  match c.parseAbs s with
  | some u => .ok u
  | none => .error (.urlParse s)

/-- `new URL(s, base)` with a thrown constructor mapped to an error. -/
def parseRelE (c : Ctx) (s : String) (base : String) : Except Err Url :=
  match c.parseRel s base with
  | some u => .ok u
  | none => .error (.urlParse s)

/-- `isBareSpecifier` (VfsHost.ts lines 452–459): not parseable as an
absolute URL, and starting with neither `.` nor `/`. -/
def isBareSpecifier (c : Ctx) (specifier : String) : Bool :=
  if (c.parseAbs specifier).isSome then false
  else !(strStartsWith specifier ".") && !(strStartsWith specifier "/")

/-- `joinUrl` (VfsHost.ts lines 464–469). -/
def joinUrlE (c : Ctx) (u : Url) (paths : List String) : Except Err Url :=
  paths.foldlM (fun u p => do
    let u ← if strEndsWith u.href "/" then Except.ok u else parseAbsE c (u.href ++ "/")
    parseRelE c p u.href) u

/-- Running resolution state of `#transformSpecifier`: `resolvedScope`
(comment: longest scope match wins), `resolvedPfx` (source name
`resolvedPrefix`; comment: then, longest prefix match wins) and the
candidate URL. -/
structure RState where
  resolvedScope : String
  resolvedPfx : String
  resolvedUrl : Option Url
deriving DecidableEq, Repr

/-- One iteration of the top-level-imports loop of `#transformSpecifier`
(lines 288–303): an entry matches on exact equality, or as a
separator-terminated prefix strictly longer than the best prefix so
far; a match eagerly constructs `new URL(replacement.href +
specifier.slice(prefix.length))`. -/
def stepImports (c : Ctx) (specifier : String) (st : RState) (e : String × String) :
    Except Err RState :=
  if specifier == e.1 ||
      (strEndsWith e.1 "/" && strStartsWith specifier e.1 &&
        decide (strLen st.resolvedPfx < strLen e.1)) then do
    let u ← parseAbsE c (e.2 ++ strDrop specifier (strLen e.1))
    Except.ok ⟨st.resolvedScope, e.1, some u⟩
  else Except.ok st

/-- One iteration of the scopes loop of `#transformSpecifier`
(lines 306–327): a scope is entered when its key is a prefix of the
source URL href and is longer than the best scope so far; inside it
the same entry test as the top-level loop runs, with `resolvedPrefix`
carried over from the top-level loop. -/
def stepScope (c : Ctx) (srcHref specifier : String) (st : RState)
    (sc : String × List (String × String)) : Except Err RState :=
  if strStartsWith srcHref sc.1 && decide (strLen st.resolvedScope < strLen sc.1) then
    sc.2.foldlM (fun st e =>
      if specifier == e.1 ||
          (strEndsWith e.1 "/" && strStartsWith specifier e.1 &&
            decide (strLen st.resolvedPfx < strLen e.1)) then do
        let u ← parseAbsE c (e.2 ++ strDrop specifier (strLen e.1))
        Except.ok ⟨sc.1, e.1, some u⟩
      else Except.ok st) st
  else Except.ok st

/-- The import-map part of `#transformSpecifier` (lines 283–327):
runs the top-level-imports loop, then the scopes loop, and returns the
candidate URL (or `none` when nothing matched). -/
def mapResolve (c : Ctx) (srcHref specifier : String) : Except Err (Option Url) := do
  let st0 : RState := ⟨"", "", none⟩
  let st1 ← c.importMap.imports.foldlM (stepImports c specifier) st0
  let st2 ← c.importMap.scopes.foldlM (stepScope c srcHref specifier) st1
  Except.ok st2.resolvedUrl

/-- `toFakeJs` of `#transformSourceFile` (lines 169–174): a specifier
ending in `.d.ts` is rewritten to end in `.js`. -/
def toFakeJs (specifier : String) : String :=
  if strEndsWith specifier ".d.ts" then strDropRight specifier 5 ++ ".js" else specifier

/-- Splice a sorted list of non-overlapping `(start, end, replacement)`
edits (original-text offsets) into a character list. -/
def spliceAll (cs : List Char) (base : Nat) : List (Nat × Nat × String) → List Char
  | [] => cs
  | (s, e, r) :: rest =>
    cs.take (s - base) ++ r.toList ++ spliceAll (cs.drop (e - base)) e rest

/-- Insertion of an edit into a start-sorted edit list. -/
def insertEdit (x : Nat × Nat × String) : List (Nat × Nat × String) →
    List (Nat × Nat × String)
  | [] => [x]
  | y :: rest => if x.1 ≤ y.1 then x :: y :: rest else y :: insertEdit x rest

/-- Start-sorting of an edit list. -/
def sortEdits : List (Nat × Nat × String) → List (Nat × Nat × String)
  | [] => []
  | x :: rest => insertEdit x (sortEdits rest)

/-- MagicString as used by `#transformSourceFile`: a set of
non-overlapping byte-range overwrites against the original text,
applied in one pass independent of discovery order. -/
def applyEdits (text : String) (edits : List (Nat × Nat × String)) : String :=
  String.mk (spliceAll text.toList 0 (sortEdits edits))

/-- `VfsHost.#fetchFile` (lines 114–144): dispatch on `url.protocol`.
The `file:` branch reads from disk; the `https:` branch issues a
memoized GET, prefers a companion declaration advertised by the
`x-typescript-types` header (forcing a `.d.ts` suffix on its URL), and
otherwise computes a guessed `.ts` suffix into a local variable
(`respUrl`, line 130) while returning `new URL(resp.url)` — the
variable holding the guess is dead in the source and is kept dead
here; `npm:`/`jsr:` re-enter with the pathname appended to the fixed
CDN origin; anything else throws.  The `Nat` argument is recursion
fuel for the `npm:`/`jsr:` re-entry. -/
def fetchFile (c : Ctx) : Nat → Url → M FetchOut
  | 0, _ => mthrow .fuelOut
  | fuel + 1, url =>
    if url.protocol == "file:" then
      mbind (memit (.diskRead url.href)) fun _ =>
      mbind (mliftE (match c.disk url.href with
        | some t => Except.ok t
        | none => Except.error (.fetchFail url.href))) fun text =>
      mbind (memit .awaitMark) fun _ =>
      mret ⟨text, url⟩
    else if url.protocol == "https:" then
      mbind (memoizedFetch c url.href) fun resp =>
      mbind (memit .awaitMark) fun _ =>
      match resp.headers.lookup "x-typescript-types" with
      | some typesUrl =>
        mbind (mliftE (parseRelE c typesUrl resp.url)) fun tu =>
        mbind (memoizedFetch c tu.href) fun typesResp =>
        mbind (memit .awaitMark) fun _ =>
        let typesRespUrl :=
          if strEndsWith typesResp.url ".d.ts" then typesResp.url
          else typesResp.url ++ ".d.ts"
        mbind (mliftE (parseAbsE c typesRespUrl)) fun u2 =>
        mret ⟨typesResp.text, u2⟩
      | none =>
        let _respUrl := if hasScriptExt resp.url then resp.url else resp.url ++ ".ts"
        mbind (mliftE (parseAbsE c resp.url)) fun u2 =>
        mret ⟨resp.text, u2⟩
    else if url.protocol == "npm:" then
      mbind (mliftE (parseRelE c url.pathname "https://esm.sh/")) fun u2 =>
      mbind (fetchFile c fuel u2) fun out =>
      mbind (memit .awaitMark) fun _ =>
      mret out
    else if url.protocol == "jsr:" then
      mbind (mliftE (parseRelE c url.pathname "https://esm.sh/jsr/")) fun u2 =>
      mbind (fetchFile c fuel u2) fun out =>
      mbind (memit .awaitMark) fun _ =>
      mret out
    else
      mthrow (.protocolUnsupported url.protocol)

mutual

/-- `VfsHost.loadFile` (lines 84–104): fetch the file, derive the
virtual path from `asUrl ?? realUrl`, return early if the path is
already in the store, otherwise reserve it with empty content, run the
transform, and fill in the final text.  Any error is re-wrapped as
`Loading file ... failed`.  The fuel argument bounds the depth of the
mutual recursion through the dependency graph. -/
def loadFile (c : Ctx) : Nat → Url → Option Url → M String
  | 0, _, _ => mthrow .fuelOut
  | fuel + 1, url, asUrl =>
    mtry
      (mbind (fetchFile c fuel url) fun fo =>
       mbind (memit .awaitMark) fun _ =>
       mbind (mliftE (urlToFakePathE (asUrl.getD fo.url))) fun fakePath =>
       mbind (storeHas fakePath) fun found =>
       if found then mret fakePath
       else
         mbind (storeReserve fakePath) fun _ =>
         mbind (transformSourceFile c fuel fo.url fo.text) fun newText =>
         mbind (memit .awaitMark) fun _ =>
         mbind (storeFill fakePath newText) fun _ =>
         mret fakePath)
      (fun e => mthrow (.loadFailed url.href e))

/-- `VfsHost.#transformSourceFile` (lines 165–268): collect the
`@jsxImportSource` pragma edit, the triple-slash `reference path`
edits, trigger the library loader for `reference lib` directives, then
rewrite every string-literal specifier site found in the syntax tree
(spans `[fullStart + 2, endPos - 1)`, values passed through
`toFakeJs`), and apply all recorded edits to the original text.  Any
error is re-wrapped as `Transforming file ... failed`. -/
def transformSourceFile (c : Ctx) : Nat → Url → String → M String
  | 0, _, _ => mthrow .fuelOut
  | fuel + 1, realUrl, text =>
    mtry
      (mbind (match (c.scan text).jsxPragma with
        | some (i0, i1, v) =>
          mbind (transformSpecifier c fuel realUrl (v ++ "/jsx-runtime")) fun s =>
          mbind (memit .awaitMark) fun _ =>
          mret [(i0, i1, s)]
        | none => mret []) fun jsxEdits =>
       mbind (mmapM (fun (t : Nat × Nat × String) =>
          mbind (transformSpecifier c fuel realUrl t.2.2) fun s =>
          mbind (memit .awaitMark) fun _ =>
          mret (t.1, t.2.1, s)) (c.scan text).refPaths) fun refEdits =>
       mbind (memit .awaitMark) fun _ =>
       mbind (mmapM (fun lib => loadLibFile c fuel lib) (c.scan text).refLibs) fun _ =>
       mbind (memit .awaitMark) fun _ =>
       mbind (mmapM (fun (site : Site) =>
          mbind (transformSpecifier c fuel realUrl site.text) fun s =>
          mret (site.fullStart + 2, site.endPos - 1, toFakeJs s)) (c.scan text).importSites)
         fun impEdits =>
       mbind (memit .awaitMark) fun _ =>
       mret (applyEdits text (jsxEdits ++ refEdits ++ impEdits)))
      (fun e => mthrow (.transformFailed realUrl.href e))

/-- `VfsHost.#transformSpecifier` (lines 278–351): resolve the
specifier through the import map, else fall back to bare-specifier
rejection or relative URL resolution, then load the resolved URL; any
failure anywhere is caught and the original specifier is returned
unchanged as the rewrite value. -/
def transformSpecifier (c : Ctx) : Nat → Url → String → M String
  | 0, _, _ => mthrow .fuelOut
  | fuel + 1, sourceUrl, specifier =>
    mtry
      (mbind (mliftE (mapResolve c sourceUrl.href specifier)) fun ro =>
       mbind (match ro with
        | some u => mret u
        | none =>
          if isBareSpecifier c specifier then mthrow (.bareSpecifier specifier)
          else mliftE (parseRelE c specifier sourceUrl.href)) fun resolvedUrl =>
       mbind (loadFile c fuel resolvedUrl none) fun fakePath =>
       mbind (memit .awaitMark) fun _ =>
       mret fakePath)
      (fun _ => mret specifier)

/-- `VfsHost.loadLibFile` (lines 49–71): normalize the library name to
`lib.<name>.d.ts`, try the default lib dir, then the bundled fallback
(stored under the virtual path of the primary URL via `asUrl`), and
swallow the failure with a warning if both fail. -/
def loadLibFile (c : Ctx) : Nat → String → M Unit
  | 0, _ => mthrow .fuelOut
  | fuel + 1, libName =>
    let fileName := strLower libName
    let fileName := if strStartsWith fileName "lib." then fileName else "lib." ++ fileName
    let fileName := if strEndsWith fileName ".d.ts" then fileName else fileName ++ ".d.ts"
    mbind (mliftE (joinUrlE c c.defaultLibDir [fileName])) fun fileUrl =>
    mtry
      (mbind (loadFile c fuel fileUrl none) fun _ =>
       mbind (memit .awaitMark) fun _ => mret ())
      (fun _ =>
        mtry
          (mbind (mliftE (parseRelE c ("dts/" ++ fileName ++ ".txt") c.metaUrl))
             fun localFileUrl =>
           mbind (loadFile c fuel localFileUrl (some fileUrl)) fun _ =>
           mbind (memit .awaitMark) fun _ => mret ())
          (fun _ => mret ()))

end

/-- The body of the `try` block of `#transformSpecifier` at fuel
`fuel` for its recursive load; `transformSpecifier (fuel+1) = mtry`
of this body with the catch-all handler (see
`transformSpecifier_eq_core`). -/
def transformSpecifierCore (c : Ctx) (fuel : Nat) (sourceUrl : Url)
    (specifier : String) : M String :=
  mbind (mliftE (mapResolve c sourceUrl.href specifier)) fun ro =>
  mbind (match ro with
    | some u => mret u
    | none =>
      if isBareSpecifier c specifier then mthrow (.bareSpecifier specifier)
      else mliftE (parseRelE c specifier sourceUrl.href)) fun resolvedUrl =>
  mbind (loadFile c fuel resolvedUrl none) fun fakePath =>
  mbind (memit .awaitMark) fun _ =>
  mret fakePath

deriving instance DecidableEq for Except

/-- Split a character list at a separator character, keeping empty
segments (helper for the path parsing below). -/
def splitChars (sep : Char) : List Char → List (List Char)
  | [] => [[]]
  | ch :: rest =>
    let r := splitChars sep rest
    if ch == sep then [] :: r
    else
      match r with
      | [] => [[ch]]
      | seg :: segs => (ch :: seg) :: segs

/-- Index (from the start) of the last occurrence of a character, if
any. -/
def lastIdxOf (ch : Char) (cs : List Char) : Option Nat :=
  match cs with
  | [] => none
  | c :: rest =>
    match lastIdxOf ch rest with
    | some i => some (i + 1)
    | none => if c == ch then some 0 else none

/-- Modelled after `parse` from jsr:@std/path (an external collaborator
of `readFile`): split a path into directory, file name without
extension, and extension (the suffix from the last dot of the base
name; a leading dot alone marks no extension, as for dotfiles). -/
def pathParseModel (p : String) : String × String × String :=
  let cs := p.toList
  let dir :=
    match lastIdxOf '/' cs with
    | some 0 => "/"
    | some i => String.mk (cs.take i)
    | none => ""
  let base :=
    match lastIdxOf '/' cs with
    | some i => cs.drop (i + 1)
    | none => cs
  match lastIdxOf '.' base with
  | some 0 => (dir, String.mk base, "")
  | none => (dir, String.mk base, "")
  | some i => (dir, String.mk (base.take i), String.mk (base.drop i))

/-- `VfsHost.readFile` (lines 403–442) with the store and the computed
`getDefaultLibLocation()` passed explicitly: strip a trailing
`/jsx-runtime` (11 characters, as `slice(0, -11)` does), rewrite file
names under the default-lib location to the canonical
`lib.<name>.d.ts` form, look the result up, and — when the found name
differs from the requested one — answer with a two-directive redirect
stub instead of the content.  The `checkOnly` flag of the source only
suppresses logging and is dropped here. -/
def readFileModel (store : List (String × String)) (libLoc : String)
    (fileName : String) : Option String :=
  let foundName :=
    if strEndsWith fileName "/jsx-runtime" then strDropRight fileName 11 else fileName
  let foundName :=
    if strStartsWith foundName libLoc then
      let (dir, name0, ext0) := pathParseModel foundName
      let name1 := strLower name0
      let ext1 := strLower ext0
      let name2 := if strStartsWith name1 "lib." then name1 else "lib." ++ name1
      let name3 := if strEndsWith name2 ".d" then name2 else name2 ++ ".d"
      let ext2 := if ext1 == ".ts" then ext1 else ".ts"
      dir ++ "/" ++ name3 ++ ext2
    else foundName
  match getKey store foundName with
  | none => none
  | some sourceText =>
    if foundName == fileName then some sourceText
    else
      some ("/// <reference no-default-lib=\"true\" />\n" ++
            "/// <reference path=\"" ++ foundName ++ "\" />\n")

/-- `VfsHost.fileExists` (lines 395–401): `readFile(fileName, true) != null`. -/
def fileExistsModel (store : List (String × String)) (libLoc : String)
    (fileName : String) : Bool :=
  (readFileModel store libLoc fileName).isSome

/-- The default-lib directory URL hard-coded by `createDenoProgram`
(src/createDenoProgram.ts lines 193–199). -/
def denoDefaultLibDir : Url :=
  ⟨"https:", "raw.githubusercontent.com",
   "/denoland/deno/main/cli/tsc/dts",
   "https://raw.githubusercontent.com/denoland/deno/main/cli/tsc/dts"⟩

/-- The store right after `createDenoProgram` constructs the host and
adds the synthetic top-level package manifest
(src/createDenoProgram.ts lines 201–206): the fresh `Map` plus the
single entry `/package.json` with content `{ "type": "module" }`,
written before any library or entry file is loaded. -/
def initStore : List (String × String) :=
  setKey [] "/package.json" "\x7b \"type\": \"module\" \x7d"

/-- Number of actual network fetches recorded in a trace. -/
def countNet : List Ev → Nat
  | [] => 0
  | .netFetch _ :: rest => countNet rest + 1
  | _ :: rest => countNet rest

/-- Number of disk reads recorded in a trace. -/
def countDisk : List Ev → Nat
  | [] => 0
  | .diskRead _ :: rest => countDisk rest + 1
  | _ :: rest => countDisk rest

/-- Number of final content writes for a given virtual path in a
trace. -/
def countFill : List Ev → String → Nat
  | [], _ => 0
  | .fill q _ :: rest, p => (if q == p then 1 else 0) + countFill rest p
  | _ :: rest, p => countFill rest p

/-- Position of the reservation write for a path in a trace (the trace
length when there is none). -/
def reserveIdx (tr : List Ev) (p : String) : Nat :=
  tr.findIdx (fun e => e == .reserve p)

/-- Does a suspension point occur strictly before the reservation
write for `p`? -/
def awaitBeforeReserve (tr : List Ev) (p : String) : Bool :=
  (tr.take (reserveIdx tr p)).any (fun e => e == .awaitMark)

/-- Is there a reservation write for `p` in the trace at all? -/
def hasReserve (tr : List Ev) (p : String) : Bool :=
  tr.any (fun e => e == .reserve p)

/-- Every negative store probe (`storeCheck p false`) is immediately
followed — with no intervening event, in particular no suspension
point — by the reservation write for the same path. -/
def noDangling : List Ev → Bool
  | [] => true
  | .storeCheck p false :: rest =>
    (match rest with
     | .reserve q :: _ => p == q
     | _ => false) && noDangling rest
  | _ :: rest => noDangling rest

/-- A trace block is safe to prepend to another block: it does not end
in a negative store probe whose reservation would have to come from
the next block. -/
def lastSafe (tr : List Ev) : Bool :=
  match tr.getLast? with
  | some (.storeCheck _ false) => false
  | _ => true

/-- The virtual path of the default-lib directory,
`getDefaultLibLocation()` for the hard-coded `defaultLibDir` of
`createDenoProgram`. -/
def defaultLibLoc : String :=
  "/https/raw.githubusercontent.com/denoland/deno/main/cli/tsc/dts"

/-- A context whose oracles all fail: no network, no disk, no URLs
parse, files scan as empty, the import map is empty.  Concrete
scenario contexts below are record updates of this one. -/
def baseCtx : Ctx where
  parseAbs := fun _ => none
  parseRel := fun _ _ => none
  disk := fun _ => none
  net := fun _ => none
  scan := fun _ => ⟨none, [], [], []⟩
  importMap := ⟨[], []⟩
  defaultLibDir := denoDefaultLibDir
  metaUrl := "file:///deslint/VfsHost.ts"
  now := 0

/-- URL value for `https://x.example/c`. -/
def uXc : Url := ⟨"https:", "x.example", "/c", "https://x.example/c"⟩

/-- URL value for `https://y.example/b/c`. -/
def uYbc : Url := ⟨"https:", "y.example", "/b/c", "https://y.example/b/c"⟩

/-- URL value for `https://y.example/c`. -/
def uYc : Url := ⟨"https:", "y.example", "/c", "https://y.example/c"⟩

/-- URL value for `https://x.example/b/c`. -/
def uXbc : Url := ⟨"https:", "x.example", "/b/c", "https://x.example/b/c"⟩

/-- A URL parser table covering the concrete resolution targets used
by the import-map scenarios. -/
def resolveParse (s : String) : Option Url :=
  if s == "https://x.example/c" then some uXc
  else if s == "https://y.example/b/c" then some uYbc
  else if s == "https://y.example/c" then some uYc
  else if s == "https://x.example/b/c" then some uXbc
  else none

/-- Scenario for the scope-precedence counterexample: top-level entry
`a/b/ → https://x.example/`, single scope `https://s.example/` with
entry `a/ → https://y.example/`. -/
def scopeCexCtx : Ctx :=
  { baseCtx with
    parseAbs := resolveParse
    importMap := ⟨[("a/b/", "https://x.example/")],
                  [("https://s.example/", [("a/", "https://y.example/")])]⟩ }

/-- Scenario for the scope-precedence witness: top-level entry
`a/ → https://x.example/`, single scope with the longer entry
`a/b/ → https://y.example/`. -/
def scopeWitCtx : Ctx :=
  { baseCtx with
    parseAbs := resolveParse
    importMap := ⟨[("a/", "https://x.example/")],
                  [("https://s.example/", [("a/b/", "https://y.example/")])]⟩ }

/-- Scenario for the longest-prefix witness: the two top-level entries
of the claim, in source order. -/
def longestPfxCtx : Ctx :=
  { baseCtx with
    parseAbs := resolveParse
    importMap := ⟨[("a/", "https://x.example/"), ("a/b/", "https://y.example/")], []⟩ }

/-- URL value for `https://e.x/a.ts`. -/
def uHa : Url := ⟨"https:", "e.x", "/a.ts", "https://e.x/a.ts"⟩

/-- URL value for `https://e.x/b.ts`. -/
def uHb : Url := ⟨"https:", "e.x", "/b.ts", "https://e.x/b.ts"⟩

/-- Scenario: one leaf module served over HTTPS with no dependencies. -/
def leafCtx : Ctx :=
  { baseCtx with
    parseAbs := fun s => if s == "https://e.x/a.ts" then some uHa else none
    net := fun s =>
      if s == "https://e.x/a.ts" then some ⟨"code", "https://e.x/a.ts", []⟩ else none }

/-- URL value for `file:///a.ts`. -/
def uFa : Url := ⟨"file:", "", "/a.ts", "file:///a.ts"⟩

/-- Scenario: one leaf module on the local filesystem. -/
def fileCtx : Ctx :=
  { baseCtx with
    disk := fun s => if s == "file:///a.ts" then some "code" else none }

/-- URL value for `file:///main.ts`. -/
def uFmain : Url := ⟨"file:", "", "/main.ts", "file:///main.ts"⟩

/-- URL value for `file:///x.d.ts`. -/
def uFxd : Url := ⟨"file:", "", "/x.d.ts", "file:///x.d.ts"⟩

/-- Scenario: a local file whose single static import is a declaration
file that fails to load (the disk oracle has no entry for it).  The
scan locates the string-literal specifier of
`import "./x.d.ts";` at `getFullStart() = 6`, `getEnd() = 17`. -/
def dtsFailCtx : Ctx :=
  { baseCtx with
    disk := fun s => if s == "file:///main.ts" then some "import \"./x.d.ts\";" else none
    parseRel := fun s b =>
      if s == "./x.d.ts" && b == "file:///main.ts" then some uFxd else none
    scan := fun t =>
      if t == "import \"./x.d.ts\";" then ⟨none, [], [], [⟨6, 17, "./x.d.ts"⟩]⟩
      else ⟨none, [], [], []⟩ }

/-- URL value for `https://e.x/foo`. -/
def uFoo : Url := ⟨"https:", "e.x", "/foo", "https://e.x/foo"⟩

/-- URL value for `https://e.x/foo.d.ts`. -/
def uFooDts : Url := ⟨"https:", "e.x", "/foo.d.ts", "https://e.x/foo.d.ts"⟩

/-- Scenario: a remote module whose response advertises a companion
type declaration via the `x-typescript-types` header; the declaration
itself is a leaf. -/
def typesCtx : Ctx :=
  { baseCtx with
    parseAbs := fun s =>
      if s == "https://e.x/foo" then some uFoo
      else if s == "https://e.x/foo.d.ts" then some uFooDts
      else none
    parseRel := fun s b =>
      if s == "https://e.x/foo.d.ts" && b == "https://e.x/foo" then some uFooDts
      else none
    net := fun s =>
      if s == "https://e.x/foo" then
        some ⟨"srccode", "https://e.x/foo", [("x-typescript-types", "https://e.x/foo.d.ts")]⟩
      else if s == "https://e.x/foo.d.ts" then
        some ⟨"declcode", "https://e.x/foo.d.ts", []⟩
      else none }

/-- URL value for `https://e.x/mod` (no script extension). -/
def uMod : Url := ⟨"https:", "e.x", "/mod", "https://e.x/mod"⟩

/-- Scenario: a remote module without a script extension and without a
type-declaration header. -/
def noExtCtx : Ctx :=
  { baseCtx with
    parseAbs := fun s => if s == "https://e.x/mod" then some uMod else none
    net := fun s =>
      if s == "https://e.x/mod" then some ⟨"modcode", "https://e.x/mod", []⟩ else none }

/-- Scenario: two HTTPS modules that import each other by absolute
URL.  `a.ts` consists of `import "https://e.x/b.ts";` (specifier site
span 7–35) and `b.ts` of `import "https://e.x/a.ts";`. -/
def cycCtx : Ctx :=
  { baseCtx with
    parseAbs := fun s =>
      if s == "https://e.x/a.ts" then some uHa
      else if s == "https://e.x/b.ts" then some uHb
      else none
    parseRel := fun s b =>
      if s == "https://e.x/b.ts" && b == "https://e.x/a.ts" then some uHb
      else if s == "https://e.x/a.ts" && b == "https://e.x/b.ts" then some uHa
      else none
    net := fun s =>
      if s == "https://e.x/a.ts" then
        some ⟨"import \"https://e.x/b.ts\";", "https://e.x/a.ts", []⟩
      else if s == "https://e.x/b.ts" then
        some ⟨"import \"https://e.x/a.ts\";", "https://e.x/b.ts", []⟩
      else none
    scan := fun t =>
      if t == "import \"https://e.x/b.ts\";" then ⟨none, [], [], [⟨6, 25, "https://e.x/b.ts"⟩]⟩
      else if t == "import \"https://e.x/a.ts\";" then ⟨none, [], [], [⟨6, 25, "https://e.x/a.ts"⟩]⟩
      else ⟨none, [], [], []⟩ }

/-- URL value with an unsupported protocol, for exercising failure
branches. -/
def uWeird : Url := ⟨"x:", "", "/q", "x:/q"⟩

/-- State evolution relation of a run: store keys are never removed,
and fresh cache entries (within the 24h window of `shouldRecalculate`)
are never replaced. -/
def SubS (c : Ctx) (s s' : St) : Prop :=
  (∀ k, hasKey s.store k = true → hasKey s'.store k = true) ∧
  (∀ h e, cacheLookup s.cache h = some e → c.now - e.date ≤ 86400000 →
    cacheLookup s'.cache h = some e)

/-- A computation only evolves the state along `SubS`: the store is
append-only and the fetch cache never drops a fresh entry. -/
def MPres {α : Type} (c : Ctx) (m : M α) : Prop :=
  ∀ st : St, SubS c st (m st).1

/-- A computation's emitted trace block keeps every negative store
probe adjacent to its reservation, and never ends in a dangling
negative probe. -/
def TraceOK {α : Type} (m : M α) : Prop :=
  ∀ st : St, noDangling (m st).2.1 = true ∧ lastSafe (m st).2.1 = true

/-- Setting a key makes it present. -/
theorem hasKey_setKey_self (l : List (String × String)) (k v : String) :
    hasKey (setKey l k v) k = true := by
  induction l with
  | nil => simp [setKey, hasKey]
  | cons kv rest ih =>
    rcases kv with ⟨k', v'⟩
    by_cases h : k' == k
    · simp [setKey, hasKey, h]
    · simp only [setKey, h]
      simp only [Bool.false_eq_true] at h
      simp [hasKey, h, ih]

/-- Setting a key preserves the presence of every key. -/
theorem hasKey_setKey_mono (l : List (String × String)) (k v k' : String)
    (h : hasKey l k' = true) : hasKey (setKey l k v) k' = true := by
  induction l with
  | nil => simp [hasKey] at h
  | cons kv rest ih =>
    rcases kv with ⟨k0, v0⟩
    simp only [hasKey, Bool.or_eq_true] at h
    by_cases h0 : k0 == k
    · have hk : k0 = k := by simpa using h0
      rcases h with h | h
      · have : k0 = k' := by simpa using h
        simp [setKey, h0, hasKey, ← hk, this]
      · simp [setKey, h0, hasKey, h, hk]
    · simp only [setKey, h0, Bool.false_eq_true]
      rcases h with h | h
      · simp [hasKey, h]
      · simp [hasKey, ih h]

/-- A present key has a value. -/
theorem getKey_isSome_of_hasKey (l : List (String × String)) (k : String)
    (h : hasKey l k = true) : (getKey l k).isSome = true := by
  induction l with
  | nil => simp [hasKey] at h
  | cons kv rest ih =>
    rcases kv with ⟨k0, v0⟩
    simp only [hasKey, Bool.or_eq_true] at h
    by_cases h0 : k0 == k
    · simp [getKey, h0]
    · simp only [Bool.false_eq_true] at h0
      rcases h with h | h
      · exact absurd h h0
      · simp [getKey, h0, ih h]

/-- Lookup after setting a cache slot. -/
theorem cacheLookup_cacheSet (l : List (String × CacheEntry)) (k : String)
    (v : CacheEntry) (h : String) :
    cacheLookup (cacheSet l k v) h = if k == h then some v else cacheLookup l h := by
  induction l with
  | nil => simp [cacheSet, cacheLookup]
  | cons kv rest ih =>
    rcases kv with ⟨k0, v0⟩
    by_cases h0 : k0 == k
    · have hk : k0 = k := by simpa using h0
      by_cases h1 : k == h
      · simp [cacheSet, h0, cacheLookup, h1]
      · have h2 : (k0 == h) = false := by
          simp only [Bool.false_eq_true] at h1 ⊢
          simp_all
        simp [cacheSet, h0, cacheLookup, h1, h2, hk]
    · by_cases h1 : k0 == h
      · have hk0 : k0 = h := by simpa using h1
        have h2 : (k == h) = false := by
          refine beq_eq_false_iff_ne.mpr ?_
          intro hkh
          exact h0 (by simp [hk0, hkh])
        simp [cacheSet, h0, cacheLookup, h1, h2]
      · simp [cacheSet, h0, cacheLookup, h1, ih]

/-- `SubS` is reflexive. -/
theorem SubS_refl (c : Ctx) (s : St) : SubS c s s := by
  constructor
  · intro k h; exact h
  · intro h e hl _; exact hl

/-- `SubS` is transitive. -/
theorem SubS_trans {c : Ctx} {s1 s2 s3 : St} (h12 : SubS c s1 s2)
    (h23 : SubS c s2 s3) : SubS c s1 s3 := by
  constructor
  · intro k h; exact h23.1 k (h12.1 k h)
  · intro h e hl hf; exact h23.2 h e (h12.2 h e hl hf) hf

/-- `mret` evolves no state. -/
theorem mpres_mret {α : Type} (c : Ctx) (a : α) : MPres c (mret a) :=
  fun st => SubS_refl c st

/-- `mthrow` evolves no state. -/
theorem mpres_mthrow {α : Type} (c : Ctx) (e : Err) : MPres c (mthrow (α := α) e) :=
  fun st => SubS_refl c st

/-- `memit` evolves no state. -/
theorem mpres_memit (c : Ctx) (e : Ev) : MPres c (memit e) :=
  fun st => SubS_refl c st

/-- `mliftE` evolves no state. -/
theorem mpres_mliftE {α : Type} (c : Ctx) (x : Except Err α) :
    MPres c (mliftE x) :=
  fun st => SubS_refl c st

/-- Sequencing of two `SubS`-respecting computations respects `SubS`. -/
theorem mpres_mbind {α β : Type} {c : Ctx} {m : M α} {f : α → M β}
    (hm : MPres c m) (hf : ∀ a, MPres c (f a)) : MPres c (mbind m f) := by
  intro st
  have h1 := hm st
  rcases hm0 : m st with ⟨st1, tr, r⟩
  rw [hm0] at h1
  unfold mbind
  rw [hm0]
  cases r with
  | ok a =>
    have h2 := hf a st1
    rcases hf0 : f a st1 with ⟨st2, tr2, r2⟩
    rw [hf0] at h2
    simp only [hf0]
    exact SubS_trans h1 h2
  | error e => exact h1

/-- `try`/`catch` over `SubS`-respecting computations respects `SubS`. -/
theorem mpres_mtry {α : Type} {c : Ctx} {m : M α} {h : Err → M α}
    (hm : MPres c m) (hh : ∀ e, MPres c (h e)) : MPres c (mtry m h) := by
  intro st
  have h1 := hm st
  rcases hm0 : m st with ⟨st1, tr, r⟩
  rw [hm0] at h1
  unfold mtry
  rw [hm0]
  cases r with
  | ok a => exact h1
  | error e =>
    have h2 := hh e st1
    rcases hh0 : h e st1 with ⟨st2, tr2, r2⟩
    rw [hh0] at h2
    simp only [hh0]
    exact SubS_trans h1 h2

/-- The store probe evolves no state. -/
theorem mpres_storeHas (c : Ctx) (p : String) : MPres c (storeHas p) :=
  fun st => SubS_refl c st

/-- The reservation write only adds a store key. -/
theorem mpres_storeReserve (c : Ctx) (p : String) : MPres c (storeReserve p) := by
  intro st
  constructor
  · intro k h
    exact hasKey_setKey_mono st.store p "" k h
  · intro h e hl _
    exact hl

/-- The final content write only adds a store key. -/
theorem mpres_storeFill (c : Ctx) (p t : String) : MPres c (storeFill p t) := by
  intro st
  constructor
  · intro k h
    exact hasKey_setKey_mono st.store p t k h
  · intro h e hl _
    exact hl

/-- `memoizedFetch` keeps every fresh cache entry: a miss only appends
a new slot, and a refetch replaces only a stale slot. -/
theorem mpres_memoizedFetch (c : Ctx) (href : String) :
    MPres c (memoizedFetch c href) := by
  intro st
  unfold memoizedFetch
  rcases hcl : cacheLookup st.cache href with _ | e0
  · rcases hn : c.net href with _ | r
    · exact SubS_refl c st
    · constructor
      · intro k h; exact h
      · intro h e hl hf
        rw [cacheLookup_cacheSet]
        by_cases hh : href == h
        · have : href = h := by simpa using hh
          rw [this] at hcl
          rw [hcl] at hl
          exact absurd hl (by simp)
        · simp only [Bool.false_eq_true] at hh
          simp [hh, hl]
  · by_cases hstale : c.now - e0.date > 86400000
    · simp only [hstale, if_true]
      rcases hn : c.net href with _ | r
      · exact SubS_refl c st
      · constructor
        · intro k h; exact h
        · intro h e hl hf
          rw [cacheLookup_cacheSet]
          by_cases hh : href == h
          · have heq : href = h := by simpa using hh
            rw [heq] at hcl
            rw [hcl] at hl
            injection hl with hl
            rw [← hl] at hf
            omega
          · simp only [Bool.false_eq_true] at hh
            simp [hh, hl]
    · simp only [hstale, if_false]
      exact SubS_refl c st

/-- `mmapM` over an `SubS`-respecting body respects `SubS`. -/
theorem mpres_mmapM {α β : Type} {c : Ctx} {f : α → M β}
    (hf : ∀ a, MPres c (f a)) : ∀ l : List α, MPres c (mmapM f l) := by
  intro l
  induction l with
  | nil => exact mpres_mret c []
  | cons a rest ih =>
    exact mpres_mbind (hf a) (fun b => mpres_mbind ih (fun bs => mpres_mret c _))

/-- `#fetchFile` respects `SubS` at every fuel. -/
theorem mpres_fetchFile (c : Ctx) : ∀ (f : Nat) (u : Url),
    MPres c (fetchFile c f u) := by
  intro f
  induction f with
  | zero => intro u; exact mpres_mthrow c _
  | succ n ih =>
    intro u
    show MPres c (fetchFile c (n + 1) u)
    unfold fetchFile
    by_cases h1 : u.protocol == "file:"
    · simp only [h1, if_true]
      exact mpres_mbind (mpres_memit c _) (fun _ =>
        mpres_mbind (mpres_mliftE c _) (fun _ =>
          mpres_mbind (mpres_memit c _) (fun _ => mpres_mret c _)))
    · simp only [h1, Bool.false_eq_true, if_false]
      by_cases h2 : u.protocol == "https:"
      · simp only [h2, if_true]
        refine mpres_mbind (mpres_memoizedFetch c _) (fun resp => ?_)
        refine mpres_mbind (mpres_memit c _) (fun _ => ?_)
        cases resp.headers.lookup "x-typescript-types"
        · exact mpres_mbind (mpres_mliftE c _) (fun _ => mpres_mret c _)
        · exact mpres_mbind (mpres_mliftE c _) (fun tu =>
            mpres_mbind (mpres_memoizedFetch c _) (fun _ =>
              mpres_mbind (mpres_memit c _) (fun _ =>
                mpres_mbind (mpres_mliftE c _) (fun _ => mpres_mret c _))))
      · simp only [h2, Bool.false_eq_true, if_false]
        by_cases h3 : u.protocol == "npm:"
        · simp only [h3, if_true]
          exact mpres_mbind (mpres_mliftE c _) (fun u2 =>
            mpres_mbind (ih u2) (fun out =>
              mpres_mbind (mpres_memit c _) (fun _ => mpres_mret c _)))
        · simp only [h3, Bool.false_eq_true, if_false]
          by_cases h4 : u.protocol == "jsr:"
          · simp only [h4, if_true]
            exact mpres_mbind (mpres_mliftE c _) (fun u2 =>
              mpres_mbind (ih u2) (fun out =>
                mpres_mbind (mpres_memit c _) (fun _ => mpres_mret c _)))
          · simp only [h4, Bool.false_eq_true, if_false]
            exact mpres_mthrow c _

/-- The whole engine respects `SubS` at every fuel: the store is
append-only and fresh cache entries are stable across any load. -/
theorem mpres_engine (c : Ctx) : ∀ f : Nat,
    (∀ (u : Url) (a : Option Url), MPres c (loadFile c f u a)) ∧
    (∀ (ru : Url) (t : String), MPres c (transformSourceFile c f ru t)) ∧
    (∀ (su : Url) (sp : String), MPres c (transformSpecifier c f su sp)) ∧
    (∀ n : String, MPres c (loadLibFile c f n)) := by
  intro f
  induction f with
  | zero =>
    exact ⟨fun _ _ => mpres_mthrow c _, fun _ _ => mpres_mthrow c _,
      fun _ _ => mpres_mthrow c _, fun _ => mpres_mthrow c _⟩
  | succ n ih =>
    obtain ⟨ihL, ihT, ihS, ihB⟩ := ih
    refine ⟨?_, ?_, ?_, ?_⟩
    · intro u a
      show MPres c (loadFile c (n + 1) u a)
      unfold loadFile
      refine mpres_mtry ?_ (fun e => mpres_mthrow c _)
      refine mpres_mbind (mpres_fetchFile c n u) (fun fo => ?_)
      refine mpres_mbind (mpres_memit c _) (fun _ => ?_)
      refine mpres_mbind (mpres_mliftE c _) (fun fakePath => ?_)
      refine mpres_mbind (mpres_storeHas c _) (fun found => ?_)
      cases found
      · simp only [Bool.false_eq_true, if_false]
        refine mpres_mbind (mpres_storeReserve c _) (fun _ => ?_)
        refine mpres_mbind (ihT fo.url fo.text) (fun newText => ?_)
        refine mpres_mbind (mpres_memit c _) (fun _ => ?_)
        exact mpres_mbind (mpres_storeFill c _ _) (fun _ => mpres_mret c _)
      · simp only [if_true]
        exact mpres_mret c _
    · intro ru t
      show MPres c (transformSourceFile c (n + 1) ru t)
      unfold transformSourceFile
      refine mpres_mtry ?_ (fun e => mpres_mthrow c _)
      refine mpres_mbind ?_ (fun jsxEdits => ?_)
      · cases (c.scan t).jsxPragma with
        | none => exact mpres_mret c _
        | some pr =>
          rcases pr with ⟨i0, i1, v⟩
          exact mpres_mbind (ihS ru _) (fun s =>
            mpres_mbind (mpres_memit c _) (fun _ => mpres_mret c _))
      · refine mpres_mbind (mpres_mmapM (fun tr => ?_) _) (fun refEdits => ?_)
        · exact mpres_mbind (ihS ru _) (fun s =>
            mpres_mbind (mpres_memit c _) (fun _ => mpres_mret c _))
        · refine mpres_mbind (mpres_memit c _) (fun _ => ?_)
          refine mpres_mbind (mpres_mmapM (fun lib => ihB lib) _) (fun _ => ?_)
          refine mpres_mbind (mpres_memit c _) (fun _ => ?_)
          refine mpres_mbind (mpres_mmapM (fun site => ?_) _) (fun impEdits => ?_)
          · exact mpres_mbind (ihS ru _) (fun s => mpres_mret c _)
          · exact mpres_mbind (mpres_memit c _) (fun _ => mpres_mret c _)
    · intro su sp
      show MPres c (transformSpecifier c (n + 1) su sp)
      unfold transformSpecifier
      refine mpres_mtry ?_ (fun e => mpres_mret c _)
      refine mpres_mbind (mpres_mliftE c _) (fun ro => ?_)
      refine mpres_mbind ?_ (fun resolvedUrl => ?_)
      · cases ro with
        | none =>
          by_cases hb : isBareSpecifier c sp
          · simp only [hb, if_true]
            exact mpres_mthrow c _
          · simp only [hb, Bool.false_eq_true, if_false]
            exact mpres_mliftE c _
        | some u => exact mpres_mret c _
      · exact mpres_mbind (ihL resolvedUrl none) (fun fakePath =>
          mpres_mbind (mpres_memit c _) (fun _ => mpres_mret c _))
    · intro libName
      show MPres c (loadLibFile c (n + 1) libName)
      unfold loadLibFile
      refine mpres_mbind (mpres_mliftE c _) (fun fileUrl => ?_)
      refine mpres_mtry ?_ (fun _ => ?_)
      · exact mpres_mbind (ihL fileUrl none) (fun _ =>
          mpres_mbind (mpres_memit c _) (fun _ => mpres_mret c _))
      · refine mpres_mtry ?_ (fun _ => mpres_mret c _)
        exact mpres_mbind (mpres_mliftE c _) (fun localFileUrl =>
          mpres_mbind (ihL localFileUrl (some fileUrl)) (fun _ =>
            mpres_mbind (mpres_memit c _) (fun _ => mpres_mret c _)))

/-- Prepending an event that is not a negative store probe does not
affect the probe/reservation adjacency check. -/
theorem noDangling_cons_plain (e : Ev) (l : List Ev)
    (he : ∀ p, e ≠ Ev.storeCheck p false) :
    noDangling (e :: l) = noDangling l := by
  cases e with
  | storeCheck p b =>
    cases b with
    | false => exact absurd rfl (he p)
    | true => rfl
  | awaitMark => rfl
  | netFetch h => rfl
  | diskRead h => rfl
  | reserve p => rfl
  | fill p t => rfl

/-- A one-event trace of anything but a negative store probe is safe. -/
theorem lastSafe_single (e : Ev) (he : ∀ p, e ≠ Ev.storeCheck p false) :
    lastSafe [e] = true := by
  cases e with
  | storeCheck p b =>
    cases b with
    | false => exact absurd rfl (he p)
    | true => rfl
  | awaitMark => rfl
  | netFetch h => rfl
  | diskRead h => rfl
  | reserve p => rfl
  | fill p t => rfl

/-- Appending to a nonempty block keeps the last element of the right
block. -/
theorem lastSafe_append (a b : List Ev) (hb : b ≠ []) :
    lastSafe (a ++ b) = lastSafe b := by
  unfold lastSafe
  rw [List.getLast?_append_of_ne_nil a hb]

/-- Prepending one event to a nonempty trace keeps the last element. -/
theorem lastSafe_cons (e : Ev) (l : List Ev) (hl : l ≠ []) :
    lastSafe (e :: l) = lastSafe l := by
  have : e :: l = [e] ++ l := rfl
  rw [this, lastSafe_append [e] l hl]

/-- Concatenation of two adjacency-respecting blocks respects
adjacency, provided the left block does not end in a dangling negative
probe. -/
theorem noDangling_append (a b : List Ev) (ha : noDangling a = true)
    (hsafe : lastSafe a = true) (hb : noDangling b = true) :
    noDangling (a ++ b) = true := by
  induction a with
  | nil => simpa using hb
  | cons e rest ih =>
    by_cases hcf : ∀ p, e ≠ Ev.storeCheck p false
    · rw [noDangling_cons_plain e rest hcf] at ha
      cases rest with
      | nil =>
        rw [List.cons_append, List.nil_append,
          noDangling_cons_plain e b hcf]
        exact hb
      | cons e' rest' =>
        have hsafe' : lastSafe (e' :: rest') = true := by
          rw [lastSafe_cons e (e' :: rest') (by simp)] at hsafe
          exact hsafe
        rw [List.cons_append, noDangling_cons_plain e _ hcf]
        exact ih ha hsafe'
    · push_neg at hcf
      obtain ⟨p, hp⟩ := hcf
      subst hp
      cases rest with
      | nil => simp [noDangling] at ha
      | cons e' rest' =>
        cases e' with
        | reserve q =>
          simp only [noDangling, Bool.and_eq_true] at ha
          have hq : (p == q) = true := by
            rcases ha with ⟨ha1, _⟩
            exact ha1
          have hsafe' : lastSafe (Ev.reserve q :: rest') = true := by
            rw [lastSafe_cons _ (Ev.reserve q :: rest') (by simp)] at hsafe
            exact hsafe
          have hnd' : noDangling (Ev.reserve q :: rest') = true := ha.2
          have := ih hnd' hsafe'
          simp only [List.cons_append] at this ⊢
          simp only [noDangling, Bool.and_eq_true]
          exact ⟨hq, this⟩
        | awaitMark => simp [noDangling] at ha
        | netFetch h => simp [noDangling] at ha
        | diskRead h => simp [noDangling] at ha
        | storeCheck q b => simp [noDangling] at ha
        | fill q t => simp [noDangling] at ha

/-- Computations with an empty trace respect the trace discipline. -/
theorem ttok_mret {α : Type} (a : α) : TraceOK (mret a) := by
  intro st; exact ⟨rfl, rfl⟩

/-- A throw emits nothing. -/
theorem ttok_mthrow {α : Type} (e : Err) : TraceOK (mthrow (α := α) e) := by
  intro st; exact ⟨rfl, rfl⟩

/-- A lift emits nothing. -/
theorem ttok_mliftE {α : Type} (x : Except Err α) : TraceOK (mliftE x) := by
  intro st; exact ⟨rfl, rfl⟩

/-- Emitting one plain event respects the trace discipline. -/
theorem ttok_memit (e : Ev) (he : ∀ p, e ≠ Ev.storeCheck p false) :
    TraceOK (memit e) := by
  intro st
  refine ⟨?_, lastSafe_single e he⟩
  rw [show (memit e st).2.1 = [e] from rfl,
    show ([e] : List Ev) = e :: [] from rfl, noDangling_cons_plain e [] he]
  rfl

/-- Sequencing respects the trace discipline. -/
theorem ttok_mbind {α β : Type} {m : M α} {f : α → M β}
    (hm : TraceOK m) (hf : ∀ a, TraceOK (f a)) : TraceOK (mbind m f) := by
  intro st
  have h1 := hm st
  rcases hm0 : m st with ⟨st1, tr, r⟩
  rw [hm0] at h1
  unfold mbind
  rw [hm0]
  cases r with
  | ok a =>
    have h2 := hf a st1
    rcases hf0 : f a st1 with ⟨st2, tr2, r2⟩
    rw [hf0] at h2
    simp only [hf0]
    constructor
    · exact noDangling_append tr tr2 h1.1 h1.2 h2.1
    · cases htr2 : tr2 with
      | nil => simpa [htr2] using h1.2
      | cons x xs =>
        rw [lastSafe_append tr (x :: xs) (by simp)]
        rw [htr2] at h2
        exact h2.2
  | error e => exact h1

/-- `try`/`catch` respects the trace discipline. -/
theorem ttok_mtry {α : Type} {m : M α} {h : Err → M α}
    (hm : TraceOK m) (hh : ∀ e, TraceOK (h e)) : TraceOK (mtry m h) := by
  intro st
  have h1 := hm st
  rcases hm0 : m st with ⟨st1, tr, r⟩
  rw [hm0] at h1
  unfold mtry
  rw [hm0]
  cases r with
  | ok a => exact h1
  | error e =>
    have h2 := hh e st1
    rcases hh0 : h e st1 with ⟨st2, tr2, r2⟩
    rw [hh0] at h2
    simp only [hh0]
    constructor
    · exact noDangling_append tr tr2 h1.1 h1.2 h2.1
    · cases htr2 : tr2 with
      | nil => simpa [htr2] using h1.2
      | cons x xs =>
        rw [lastSafe_append tr (x :: xs) (by simp)]
        rw [htr2] at h2
        exact h2.2

/-- `mmapM` respects the trace discipline. -/
theorem ttok_mmapM {α β : Type} {f : α → M β}
    (hf : ∀ a, TraceOK (f a)) : ∀ l : List α, TraceOK (mmapM f l) := by
  intro l
  induction l with
  | nil => exact ttok_mret []
  | cons a rest ih =>
    exact ttok_mbind (hf a) (fun b => ttok_mbind ih (fun bs => ttok_mret _))

/-- The reservation write is a plain event. -/
theorem ttok_storeReserve (p : String) : TraceOK (storeReserve p) := by
  intro st
  refine ⟨?_, lastSafe_single (.reserve p) (by intro q; simp)⟩
  rw [show (storeReserve p st).2.1 = [.reserve p] from rfl,
    show ([Ev.reserve p] : List Ev) = Ev.reserve p :: [] from rfl,
    noDangling_cons_plain (.reserve p) [] (by intro q; simp)]
  rfl

/-- The final content write is a plain event. -/
theorem ttok_storeFill (p t : String) : TraceOK (storeFill p t) := by
  intro st
  refine ⟨?_, lastSafe_single (.fill p t) (by intro q; simp)⟩
  rw [show (storeFill p t st).2.1 = [.fill p t] from rfl,
    show ([Ev.fill p t] : List Ev) = Ev.fill p t :: [] from rfl,
    noDangling_cons_plain (.fill p t) [] (by intro q; simp)]
  rfl

/-- The memoized fetch emits at most one plain event. -/
theorem ttok_memoizedFetch (c : Ctx) (href : String) :
    TraceOK (memoizedFetch c href) := by
  intro st
  unfold memoizedFetch
  rcases hcl : cacheLookup st.cache href with _ | e0
  · rcases hn : c.net href with _ | r <;>
      exact ⟨rfl, rfl⟩
  · by_cases hstale : c.now - e0.date > 86400000
    · simp only [hstale, if_true]
      rcases hn : c.net href with _ | r <;>
        exact ⟨rfl, rfl⟩
    · simp only [hstale, if_false]
      exact ⟨rfl, rfl⟩

/-- `#fetchFile` respects the trace discipline at every fuel. -/
theorem ttok_fetchFile (c : Ctx) : ∀ (f : Nat) (u : Url),
    TraceOK (fetchFile c f u) := by
  intro f
  induction f with
  | zero => intro u; exact ttok_mthrow _
  | succ n ih =>
    intro u
    show TraceOK (fetchFile c (n + 1) u)
    unfold fetchFile
    by_cases h1 : u.protocol == "file:"
    · simp only [h1, if_true]
      exact ttok_mbind (ttok_memit _ (by intro q; simp)) (fun _ =>
        ttok_mbind (ttok_mliftE _) (fun _ =>
          ttok_mbind (ttok_memit _ (by intro q; simp)) (fun _ => ttok_mret _)))
    · simp only [h1, Bool.false_eq_true, if_false]
      by_cases h2 : u.protocol == "https:"
      · simp only [h2, if_true]
        refine ttok_mbind (ttok_memoizedFetch c _) (fun resp => ?_)
        refine ttok_mbind (ttok_memit _ (by intro q; simp)) (fun _ => ?_)
        cases resp.headers.lookup "x-typescript-types"
        · exact ttok_mbind (ttok_mliftE _) (fun _ => ttok_mret _)
        · exact ttok_mbind (ttok_mliftE _) (fun tu =>
            ttok_mbind (ttok_memoizedFetch c _) (fun _ =>
              ttok_mbind (ttok_memit _ (by intro q; simp)) (fun _ =>
                ttok_mbind (ttok_mliftE _) (fun _ => ttok_mret _))))
      · simp only [h2, Bool.false_eq_true, if_false]
        by_cases h3 : u.protocol == "npm:"
        · simp only [h3, if_true]
          exact ttok_mbind (ttok_mliftE _) (fun u2 =>
            ttok_mbind (ih u2) (fun out =>
              ttok_mbind (ttok_memit _ (by intro q; simp)) (fun _ => ttok_mret _)))
        · simp only [h3, Bool.false_eq_true, if_false]
          by_cases h4 : u.protocol == "jsr:"
          · simp only [h4, if_true]
            exact ttok_mbind (ttok_mliftE _) (fun u2 =>
              ttok_mbind (ih u2) (fun out =>
                ttok_mbind (ttok_memit _ (by intro q; simp)) (fun _ => ttok_mret _)))
          · simp only [h4, Bool.false_eq_true, if_false]
            exact ttok_mthrow _

/-- The probe-then-branch block of `loadFile`: when the path is unseen
the false branch must start with the matching reservation write — then
the combined block keeps the probe and the reservation adjacent. -/
theorem ttok_has_branch {α : Type} (p : String) (ktrue kfalse : M α)
    (ht : TraceOK ktrue) (hf : TraceOK kfalse)
    (hstart : ∀ st : St, ∃ tl, (kfalse st).2.1 = Ev.reserve p :: tl) :
    TraceOK (mbind (storeHas p) (fun found => if found then ktrue else kfalse)) := by
  intro st
  unfold mbind storeHas
  cases hk : hasKey st.store p
  · simp only [Bool.false_eq_true, if_false]
    obtain ⟨tl, htl⟩ := hstart st
    have h2 := hf st
    rcases hk0 : kfalse st with ⟨st2, tr2, r2⟩
    rw [hk0] at h2 htl
    simp only at htl
    simp only [hk0, htl]
    constructor
    · simp only [List.cons_append, List.nil_append]
      rw [htl] at h2
      simp only [noDangling, beq_self_eq_true, Bool.true_and]
      exact h2.1
    · rw [List.cons_append, List.nil_append,
        show Ev.storeCheck p false :: Ev.reserve p :: tl =
          [Ev.storeCheck p false] ++ Ev.reserve p :: tl from rfl,
        lastSafe_append [Ev.storeCheck p false] (Ev.reserve p :: tl) (by simp)]
      rw [htl] at h2
      exact h2.2
  · simp only [if_true]
    have h2 := ht st
    rcases hk0 : ktrue st with ⟨st2, tr2, r2⟩
    rw [hk0] at h2
    simp only [hk0]
    constructor
    · simp only [List.cons_append, List.nil_append]
      rw [noDangling_cons_plain _ _ (by intro q; simp)]
      exact h2.1
    · cases htr2 : tr2 with
      | nil =>
        subst htr2
        exact lastSafe_single _ (by intro q; simp)
      | cons x xs =>
        rw [lastSafe_append [Ev.storeCheck p true] (x :: xs) (by simp)]
        rw [htr2] at h2
        exact h2.2

/-- A block that starts with the reservation write indeed emits it
first. -/
theorem reserve_starts {α : Type} (p : String) (k : Unit → M α) (st : St) :
    ∃ tl, ((mbind (storeReserve p) k) st).2.1 = Ev.reserve p :: tl := by
  unfold mbind storeReserve
  rcases hk : k () ⟨setKey st.store p "", st.cache⟩ with ⟨st2, tr2, r2⟩
  exact ⟨tr2, by simp [hk]⟩

/-- The whole engine respects the trace discipline at every fuel: in
any run, a negative `has` probe is immediately followed by the
reservation write for the same virtual path. -/
theorem ttok_engine (c : Ctx) : ∀ f : Nat,
    (∀ (u : Url) (a : Option Url), TraceOK (loadFile c f u a)) ∧
    (∀ (ru : Url) (t : String), TraceOK (transformSourceFile c f ru t)) ∧
    (∀ (su : Url) (sp : String), TraceOK (transformSpecifier c f su sp)) ∧
    (∀ n : String, TraceOK (loadLibFile c f n)) := by
  intro f
  induction f with
  | zero =>
    exact ⟨fun _ _ => ttok_mthrow _, fun _ _ => ttok_mthrow _,
      fun _ _ => ttok_mthrow _, fun _ => ttok_mthrow _⟩
  | succ n ih =>
    obtain ⟨ihL, ihT, ihS, ihB⟩ := ih
    refine ⟨?_, ?_, ?_, ?_⟩
    · intro u a
      show TraceOK (loadFile c (n + 1) u a)
      unfold loadFile
      refine ttok_mtry ?_ (fun e => ttok_mthrow _)
      refine ttok_mbind (ttok_fetchFile c n u) (fun fo => ?_)
      refine ttok_mbind (ttok_memit _ (by intro q; simp)) (fun _ => ?_)
      refine ttok_mbind (ttok_mliftE _) (fun fakePath => ?_)
      refine ttok_has_branch fakePath _ _ (ttok_mret _) ?_
        (reserve_starts fakePath _)
      refine ttok_mbind (ttok_storeReserve _) (fun _ => ?_)
      refine ttok_mbind (ihT fo.url fo.text) (fun newText => ?_)
      refine ttok_mbind (ttok_memit _ (by intro q; simp)) (fun _ => ?_)
      exact ttok_mbind (ttok_storeFill _ _) (fun _ => ttok_mret _)
    · intro ru t
      show TraceOK (transformSourceFile c (n + 1) ru t)
      unfold transformSourceFile
      refine ttok_mtry ?_ (fun e => ttok_mthrow _)
      refine ttok_mbind ?_ (fun jsxEdits => ?_)
      · cases (c.scan t).jsxPragma with
        | none => exact ttok_mret _
        | some pr =>
          rcases pr with ⟨i0, i1, v⟩
          exact ttok_mbind (ihS ru _) (fun s =>
            ttok_mbind (ttok_memit _ (by intro q; simp)) (fun _ => ttok_mret _))
      · refine ttok_mbind (ttok_mmapM (fun tr => ?_) _) (fun refEdits => ?_)
        · exact ttok_mbind (ihS ru _) (fun s =>
            ttok_mbind (ttok_memit _ (by intro q; simp)) (fun _ => ttok_mret _))
        · refine ttok_mbind (ttok_memit _ (by intro q; simp)) (fun _ => ?_)
          refine ttok_mbind (ttok_mmapM (fun lib => ihB lib) _) (fun _ => ?_)
          refine ttok_mbind (ttok_memit _ (by intro q; simp)) (fun _ => ?_)
          refine ttok_mbind (ttok_mmapM (fun site => ?_) _) (fun impEdits => ?_)
          · exact ttok_mbind (ihS ru _) (fun s => ttok_mret _)
          · exact ttok_mbind (ttok_memit _ (by intro q; simp)) (fun _ => ttok_mret _)
    · intro su sp
      show TraceOK (transformSpecifier c (n + 1) su sp)
      unfold transformSpecifier
      refine ttok_mtry ?_ (fun e => ttok_mret _)
      refine ttok_mbind (ttok_mliftE _) (fun ro => ?_)
      refine ttok_mbind ?_ (fun resolvedUrl => ?_)
      · cases ro with
        | none =>
          by_cases hb : isBareSpecifier c sp
          · simp only [hb, if_true]
            exact ttok_mthrow _
          · simp only [hb, Bool.false_eq_true, if_false]
            exact ttok_mliftE _
        | some u => exact ttok_mret _
      · exact ttok_mbind (ihL resolvedUrl none) (fun fakePath =>
          ttok_mbind (ttok_memit _ (by intro q; simp)) (fun _ => ttok_mret _))
    · intro libName
      show TraceOK (loadLibFile c (n + 1) libName)
      unfold loadLibFile
      refine ttok_mbind (ttok_mliftE _) (fun fileUrl => ?_)
      refine ttok_mtry ?_ (fun _ => ?_)
      · exact ttok_mbind (ihL fileUrl none) (fun _ =>
          ttok_mbind (ttok_memit _ (by intro q; simp)) (fun _ => ttok_mret _))
      · refine ttok_mtry ?_ (fun _ => ttok_mret _)
        exact ttok_mbind (ttok_mliftE _) (fun localFileUrl =>
          ttok_mbind (ihL localFileUrl (some fileUrl)) (fun _ =>
            ttok_mbind (ttok_memit _ (by intro q; simp)) (fun _ => ttok_mret _)))

/-- Evaluation of `memoizedFetch` on a cache miss with a reachable
network: one real fetch, and the lowercased response is cached with the
current timestamp. -/
theorem memoizedFetch_miss (c : Ctx) (href : String) (st : St) (r : NetResp)
    (hc : cacheLookup st.cache href = none) (hn : c.net href = some r) :
    memoizedFetch c href st =
      (⟨st.store, cacheSet st.cache href ⟨⟨r.text, r.url, lowerHeaders r.headers⟩, c.now⟩⟩,
       [.netFetch href], .ok ⟨r.text, r.url, lowerHeaders r.headers⟩) := by
  unfold memoizedFetch
  rw [hc, hn]

/-- Evaluation of `memoizedFetch` on a fresh cache hit: no events, no
state change, the cached response. -/
theorem memoizedFetch_hit (c : Ctx) (href : String) (st : St) (e : CacheEntry)
    (hc : cacheLookup st.cache href = some e)
    (hfresh : c.now - e.date ≤ 86400000) :
    memoizedFetch c href st = (st, [], .ok e.resp) := by
  unfold memoizedFetch
  rw [hc]
  have hns : ¬(c.now - e.date > 86400000) := by omega
  simp [hns]

/-- Evaluation of `#fetchFile` on a `file:` URL. -/
theorem fetchFile_file (c : Ctx) (f : Nat) (u : Url) (st : St)
    (hp : u.protocol = "file:") :
    fetchFile c (f + 1) u st =
      match c.disk u.href with
      | some t => (st, [.diskRead u.href, .awaitMark], .ok ⟨t, u⟩)
      | none => (st, [.diskRead u.href], .error (.fetchFail u.href)) := by
  unfold fetchFile
  rw [hp]
  cases hd : c.disk u.href <;>
    simp [mbind, memit, mliftE, mret, hd]

/-- Evaluation of the `https:` branch of `#fetchFile` when no
type-declaration header is present: the memoized response is returned,
re-parsing `resp.url` — the computed guessed-suffix variable is
discarded, exactly as in the source. -/
theorem fetchFile_https_nohdr (c : Ctx) (f : Nat) (u : Url) (st st1 : St)
    (tr : List Ev) (resp : NetResp)
    (hp : u.protocol = "https:")
    (hm : memoizedFetch c u.href st = (st1, tr, .ok resp))
    (hh : resp.headers.lookup "x-typescript-types" = none) :
    fetchFile c (f + 1) u st =
      match c.parseAbs resp.url with
      | some u2 => (st1, tr ++ [.awaitMark], .ok ⟨resp.text, u2⟩)
      | none => (st1, tr ++ [.awaitMark], .error (.urlParse resp.url)) := by
  unfold fetchFile
  rw [hp]
  cases hy : c.parseAbs resp.url <;>
    simp [mbind, memit, mliftE, mret, parseAbsE, hm, hh, hy]

/-- Evaluation of the `https:` branch of `#fetchFile` when the
response advertises a companion type declaration: the second memoized
fetch is issued, a `.d.ts` suffix is forced if absent, and the
declaration text is returned under the declaration URL. -/
theorem fetchFile_https_hdr (c : Ctx) (f : Nat) (u : Url) (st st1 st2 : St)
    (tr tr2 : List Ev) (resp typesResp : NetResp) (tUrl : String) (tu : Url)
    (hp : u.protocol = "https:")
    (hm : memoizedFetch c u.href st = (st1, tr, .ok resp))
    (hh : resp.headers.lookup "x-typescript-types" = some tUrl)
    (hrel : c.parseRel tUrl resp.url = some tu)
    (hm2 : memoizedFetch c tu.href st1 = (st2, tr2, .ok typesResp)) :
    fetchFile c (f + 1) u st =
      match c.parseAbs (if strEndsWith typesResp.url ".d.ts" then typesResp.url
        else typesResp.url ++ ".d.ts") with
      | some u2 =>
        (st2, tr ++ [.awaitMark] ++ tr2 ++ [.awaitMark], .ok ⟨typesResp.text, u2⟩)
      | none =>
        (st2, tr ++ [.awaitMark] ++ tr2 ++ [.awaitMark],
         .error (.urlParse (if strEndsWith typesResp.url ".d.ts" then typesResp.url
           else typesResp.url ++ ".d.ts"))) := by
  unfold fetchFile
  rw [hp]
  cases hy : c.parseAbs (if strEndsWith typesResp.url ".d.ts" then typesResp.url
      else typesResp.url ++ ".d.ts") <;>
    simp [mbind, memit, mliftE, mret, parseAbsE, parseRelE, hm, hh, hrel, hm2, hy]

/-- Evaluation of `loadFile` when the virtual path is already present:
the fetch still runs, but the routine returns right after the probe. -/
theorem loadFile_found (c : Ctx) (f : Nat) (u : Url) (asUrl : Option Url)
    (st st1 : St) (tr : List Ev) (fo : FetchOut) (p : String)
    (hf : fetchFile c f u st = (st1, tr, .ok fo))
    (hfp : urlToFakePathE (asUrl.getD fo.url) = .ok p)
    (hhas : hasKey st1.store p = true) :
    loadFile c (f + 1) u asUrl st = (st1, tr ++ [.awaitMark, .storeCheck p true], .ok p) := by
  unfold loadFile
  simp [mtry, mbind, memit, mliftE, mret, storeHas, hf, hfp, hhas]

/-- Evaluation of `loadFile` on a not-yet-seen virtual path whose
transform succeeds: reserve, transform, fill. -/
theorem loadFile_new (c : Ctx) (f : Nat) (u : Url) (asUrl : Option Url)
    (st st1 st2 : St) (tr tr2 : List Ev) (fo : FetchOut) (p newText : String)
    (hf : fetchFile c f u st = (st1, tr, .ok fo))
    (hfp : urlToFakePathE (asUrl.getD fo.url) = .ok p)
    (hhas : hasKey st1.store p = false)
    (ht : transformSourceFile c f fo.url fo.text ⟨setKey st1.store p "", st1.cache⟩ =
      (st2, tr2, .ok newText)) :
    loadFile c (f + 1) u asUrl st =
      (⟨setKey st2.store p newText, st2.cache⟩,
       tr ++ [.awaitMark, .storeCheck p false, .reserve p] ++ tr2 ++
         [.awaitMark, .fill p newText],
       .ok p) := by
  unfold loadFile
  simp [mtry, mbind, memit, mliftE, mret, storeHas, storeReserve, storeFill,
    hf, hfp, hhas, ht]

/-- Splicing no edits reproduces the original text. -/
theorem applyEdits_nil (text : String) : applyEdits text [] = text := by
  unfold applyEdits sortEdits spliceAll
  cases text
  rfl

/-- Evaluation of `#transformSourceFile` on a file with no pragma, no
directives and no specifier sites. -/
theorem transform_empty (c : Ctx) (f : Nat) (ru : Url) (text : String) (st : St)
    (hscan : c.scan text = ⟨none, [], [], []⟩) :
    transformSourceFile c (f + 1) ru text st =
      (st, [.awaitMark, .awaitMark, .awaitMark], .ok text) := by
  unfold transformSourceFile
  simp [mtry, mbind, memit, mliftE, mret, mmapM, hscan, applyEdits_nil]

/-- Evaluation of `#transformSourceFile` on a file whose only
discovered dependency is a single specifier site. -/
theorem transform_single (c : Ctx) (f : Nat) (ru : Url) (text : String)
    (st st1 : St) (tr : List Ev) (s : Site) (v : String)
    (hscan : c.scan text = ⟨none, [], [], [s]⟩)
    (hts : transformSpecifier c f ru s.text st = (st1, tr, .ok v)) :
    transformSourceFile c (f + 1) ru text st =
      (st1, [.awaitMark, .awaitMark] ++ tr ++ [.awaitMark],
       .ok (applyEdits text [(s.fullStart + 2, s.endPos - 1, toFakeJs v)])) := by
  unfold transformSourceFile
  simp [mtry, mbind, memit, mliftE, mret, mmapM, hscan, hts]

/-- Dispatch of `#transformSpecifier` when no import-map entry matched
(helper shared by several claim proofs): a bare specifier fails inside
the local `try` and falls back to the original text with nothing
loaded; otherwise the relative resolution is loaded and its virtual
path returned, with a load failure likewise falling back to the
original text. -/
theorem tspec_dispatch (c : Ctx) (f : Nat) (su : Url) (sp : String) (st : St)
    (hmap : mapResolve c su.href sp = .ok none) :
    transformSpecifier c (f + 1) su sp st =
      if isBareSpecifier c sp then (st, [], .ok sp)
      else
        match c.parseRel sp su.href with
        | none => (st, [], .ok sp)
        | some ru =>
          match loadFile c f ru none st with
          | (st', tr, .ok p) => (st', tr ++ [.awaitMark], .ok p)
          | (st', tr, .error _) => (st', tr, .ok sp) := by
  simp only [transformSpecifier, mtry, mbind, mliftE, mret, mthrow, hmap]
  by_cases hb : isBareSpecifier c sp
  · simp [hb, mthrow]
  · simp only [hb, if_false, Bool.false_eq_true, parseRelE]
    cases hr : c.parseRel sp su.href
    · simp [mliftE]
    · rename_i ru
      rcases hl : loadFile c f ru none st with ⟨st', tr, r⟩
      cases r <;> simp [mliftE, memit, mret, hl]

/-- `#transformSpecifier` on an unmatched non-bare specifier whose
load succeeds: the loaded virtual path is the rewrite value. -/
theorem tspec_load_ok (c : Ctx) (f : Nat) (su : Url) (sp : String)
    (st st1 : St) (tr : List Ev) (ru : Url) (p : String)
    (hmap : mapResolve c su.href sp = .ok none)
    (hb : isBareSpecifier c sp = false)
    (hrel : c.parseRel sp su.href = some ru)
    (hl : loadFile c f ru none st = (st1, tr, .ok p)) :
    transformSpecifier c (f + 1) su sp st = (st1, tr ++ [.awaitMark], .ok p) := by
  rw [tspec_dispatch c f su sp st hmap, hb]
  simp [hrel, hl]

/-- `countNet` distributes over concatenation. -/
theorem countNet_append (a b : List Ev) :
    countNet (a ++ b) = countNet a + countNet b := by
  induction a with
  | nil => simp [countNet]
  | cons e rest ih =>
    cases e <;> simp [countNet, ih] <;> omega

/-- `countDisk` distributes over concatenation. -/
theorem countDisk_append (a b : List Ev) :
    countDisk (a ++ b) = countDisk a + countDisk b := by
  induction a with
  | nil => simp [countDisk]
  | cons e rest ih =>
    cases e <;> simp [countDisk, ih] <;> omega

/-- `countFill` distributes over concatenation. -/
theorem countFill_append (a b : List Ev) (p : String) :
    countFill (a ++ b) p = countFill a p + countFill b p := by
  induction a with
  | nil => simp [countFill]
  | cons e rest ih =>
    cases e <;> simp [countFill, ih] <;> omega

/-- `#transformSpecifier` on an unmatched non-bare specifier whose
load fails: the original specifier comes back as the rewrite value and
the failure goes no further. -/
theorem tspec_load_err (c : Ctx) (f : Nat) (su : Url) (sp : String)
    (st st1 : St) (tr : List Ev) (ru : Url) (er : Err)
    (hmap : mapResolve c su.href sp = .ok none)
    (hb : isBareSpecifier c sp = false)
    (hrel : c.parseRel sp su.href = some ru)
    (hl : loadFile c f ru none st = (st1, tr, .error er)) :
    transformSpecifier c (f + 1) su sp st = (st1, tr, .ok sp) := by
  rw [tspec_dispatch c f su sp st hmap, hb]
  simp [hrel, hl]

/-- A successful `memoizedFetch` leaves a fresh cache entry holding
exactly the returned response. -/
theorem memoizedFetch_post (c : Ctx) (href : String) (st sa : St)
    (ta : List Ev) (resp : NetResp)
    (h : memoizedFetch c href st = (sa, ta, .ok resp)) :
    ∃ d, cacheLookup sa.cache href = some ⟨resp, d⟩ ∧ c.now - d ≤ 86400000 := by
  unfold memoizedFetch at h
  rcases hcl : cacheLookup st.cache href with _ | e0
  · rw [hcl] at h
    dsimp only at h
    rcases hn : c.net href with _ | r
    · rw [hn] at h
      simp at h
    · rw [hn] at h
      simp only [Prod.mk.injEq, Except.ok.injEq] at h
      obtain ⟨h1, _, h3⟩ := h
      refine ⟨c.now, ?_, by omega⟩
      rw [← h1]
      simp only [cacheLookup_cacheSet, beq_self_eq_true, if_true, h3]
  · rw [hcl] at h
    dsimp only at h
    by_cases hstale : c.now - e0.date > 86400000
    · rw [if_pos hstale] at h
      rcases hn : c.net href with _ | r
      · rw [hn] at h
        simp at h
      · rw [hn] at h
        simp only [Prod.mk.injEq, Except.ok.injEq] at h
        obtain ⟨h1, _, h3⟩ := h
        refine ⟨c.now, ?_, by omega⟩
        rw [← h1]
        simp only [cacheLookup_cacheSet, beq_self_eq_true, if_true, h3]
    · rw [if_neg hstale] at h
      simp only [Prod.mk.injEq, Except.ok.injEq] at h
      obtain ⟨h1, _, h3⟩ := h
      refine ⟨e0.date, ?_, by omega⟩
      rw [← h1, hcl, ← h3]

/-- Evaluation of the `https:` branch when the memoized fetch throws. -/
theorem fetchFile_https_memoerr (c : Ctx) (f : Nat) (u : Url) (st sa : St)
    (ta : List Ev) (e : Err)
    (hp : u.protocol = "https:")
    (hm : memoizedFetch c u.href st = (sa, ta, .error e)) :
    fetchFile c (f + 1) u st = (sa, ta, .error e) := by
  unfold fetchFile
  rw [hp]
  simp [mbind, memit, mliftE, mret, hm]

/-- Evaluation of the `https:` branch when the type-declaration URL
does not parse against the response URL. -/
theorem fetchFile_https_relfail (c : Ctx) (f : Nat) (u : Url) (st sa : St)
    (ta : List Ev) (resp : NetResp) (tUrl : String)
    (hp : u.protocol = "https:")
    (hm : memoizedFetch c u.href st = (sa, ta, .ok resp))
    (hh : resp.headers.lookup "x-typescript-types" = some tUrl)
    (hrel : c.parseRel tUrl resp.url = none) :
    fetchFile c (f + 1) u st = (sa, ta ++ [.awaitMark], .error (.urlParse tUrl)) := by
  unfold fetchFile
  rw [hp]
  simp [mbind, memit, mliftE, mret, parseRelE, hm, hh, hrel]

/-- Evaluation of the `https:` branch when the second memoized fetch
throws. -/
theorem fetchFile_https_memoerr2 (c : Ctx) (f : Nat) (u : Url) (st sa sb : St)
    (ta tb : List Ev) (resp : NetResp) (tUrl : String) (tu : Url) (e : Err)
    (hp : u.protocol = "https:")
    (hm : memoizedFetch c u.href st = (sa, ta, .ok resp))
    (hh : resp.headers.lookup "x-typescript-types" = some tUrl)
    (hrel : c.parseRel tUrl resp.url = some tu)
    (hm2 : memoizedFetch c tu.href sa = (sb, tb, .error e)) :
    fetchFile c (f + 1) u st = (sb, ta ++ [.awaitMark] ++ tb, .error e) := by
  unfold fetchFile
  rw [hp]
  simp [mbind, memit, mliftE, mret, parseRelE, hm, hh, hrel, hm2]

/-- Evaluation of `#fetchFile` on an `npm:` URL: re-enter against the
fixed CDN origin. -/
theorem fetchFile_npm (c : Ctx) (f : Nat) (u : Url) (st : St)
    (hp : u.protocol = "npm:") :
    fetchFile c (f + 1) u st =
      match c.parseRel u.pathname "https://esm.sh/" with
      | none => (st, [], .error (.urlParse u.pathname))
      | some u2 =>
        match fetchFile c f u2 st with
        | (st', tr, .ok out) => (st', tr ++ [.awaitMark], .ok out)
        | (st', tr, .error e) => (st', tr, .error e) := by
  simp only [fetchFile]
  rw [hp]
  cases hr : c.parseRel u.pathname "https://esm.sh/"
  · simp [mbind, memit, mliftE, mret, parseRelE, hr]
  · rename_i u2
    rcases hf : fetchFile c f u2 st with ⟨st', tr, r⟩
    cases r <;> simp [mbind, memit, mliftE, mret, parseRelE, hr, hf]

/-- Evaluation of `#fetchFile` on a `jsr:` URL: re-enter against the
fixed CDN origin. -/
theorem fetchFile_jsr (c : Ctx) (f : Nat) (u : Url) (st : St)
    (hp : u.protocol = "jsr:") :
    fetchFile c (f + 1) u st =
      match c.parseRel u.pathname "https://esm.sh/jsr/" with
      | none => (st, [], .error (.urlParse u.pathname))
      | some u2 =>
        match fetchFile c f u2 st with
        | (st', tr, .ok out) => (st', tr ++ [.awaitMark], .ok out)
        | (st', tr, .error e) => (st', tr, .error e) := by
  simp only [fetchFile]
  rw [hp]
  cases hr : c.parseRel u.pathname "https://esm.sh/jsr/"
  · simp [mbind, memit, mliftE, mret, parseRelE, hr]
  · rename_i u2
    rcases hf : fetchFile c f u2 st with ⟨st', tr, r⟩
    cases r <;> simp [mbind, memit, mliftE, mret, parseRelE, hr, hf]

/-- Evaluation of `#fetchFile` on an unsupported protocol. -/
theorem fetchFile_unsupported (c : Ctx) (f : Nat) (u : Url) (st : St)
    (h1 : u.protocol ≠ "file:") (h2 : u.protocol ≠ "https:")
    (h3 : u.protocol ≠ "npm:") (h4 : u.protocol ≠ "jsr:") :
    fetchFile c (f + 1) u st = (st, [], .error (.protocolUnsupported u.protocol)) := by
  have g1 : (u.protocol == "file:") = false := beq_eq_false_iff_ne.mpr h1
  have g2 : (u.protocol == "https:") = false := beq_eq_false_iff_ne.mpr h2
  have g3 : (u.protocol == "npm:") = false := beq_eq_false_iff_ne.mpr h3
  have g4 : (u.protocol == "jsr:") = false := beq_eq_false_iff_ne.mpr h4
  simp only [fetchFile]
  simp [g1, g2, g3, g4, mthrow]

/-- Replaying `#fetchFile` after a successful run: from any later
state, the same output comes back with no network fetch, no state
change, and no content write. -/
theorem fetchFile_replay (c : Ctx) : ∀ (f : Nat) (u : Url) (st st1 st2 : St)
    (tr : List Ev) (out : FetchOut),
    fetchFile c f u st = (st1, tr, .ok out) → SubS c st1 st2 →
    (fetchFile c f u st2).1 = st2 ∧
    (fetchFile c f u st2).2.2 = .ok out ∧
    countNet (fetchFile c f u st2).2.1 = 0 ∧
    (∀ q, countFill (fetchFile c f u st2).2.1 q = 0) := by
  intro f
  induction f with
  | zero =>
    intro u st st1 st2 tr out h hsub
    exact absurd h (by simp [fetchFile, mthrow])
  | succ n ih =>
    intro u st st1 st2 tr out h hsub
    by_cases h1 : u.protocol = "file:"
    · rw [fetchFile_file c n u st h1] at h
      rw [fetchFile_file c n u st2 h1]
      cases hd : c.disk u.href
      · rw [hd] at h
        simp at h
      · rename_i t
        rw [hd] at h
        simp only [Prod.mk.injEq, Except.ok.injEq] at h
        obtain ⟨he1, he2, he3⟩ := h
        subst he3
        exact ⟨rfl, rfl, by simp [countNet], fun q => by simp [countFill]⟩
    · by_cases h2 : u.protocol = "https:"
      · rcases hm : memoizedFetch c u.href st with ⟨sa, ta, ra⟩
        cases ra with
        | error e =>
          rw [fetchFile_https_memoerr c n u st sa ta e h2 hm] at h
          simp at h
        | ok resp =>
          cases hh : resp.headers.lookup "x-typescript-types" with
          | none =>
            rw [fetchFile_https_nohdr c n u st sa ta resp h2 hm hh] at h
            cases hy : c.parseAbs resp.url with
            | none =>
              rw [hy] at h
              simp at h
            | some u2 =>
              rw [hy] at h
              simp only [Prod.mk.injEq, Except.ok.injEq] at h
              obtain ⟨he1, he2, he3⟩ := h
              obtain ⟨d, hld, hfr⟩ := memoizedFetch_post c u.href st sa ta resp hm
              have hld2 : cacheLookup st2.cache u.href = some ⟨resp, d⟩ := by
                apply hsub.2
                · rw [← he1]
                  exact hld
                · exact hfr
              have hhit := memoizedFetch_hit c u.href st2 ⟨resp, d⟩ hld2 hfr
              rw [fetchFile_https_nohdr c n u st2 st2 [] resp h2 hhit hh, hy]
              subst he3
              exact ⟨rfl, rfl, by simp [countNet], fun q => by simp [countFill]⟩
          | some tUrl =>
            cases hrel : c.parseRel tUrl resp.url with
            | none =>
              rw [fetchFile_https_relfail c n u st sa ta resp tUrl h2 hm hh hrel] at h
              simp at h
            | some tu =>
              rcases hm2 : memoizedFetch c tu.href sa with ⟨sb, tb, rb⟩
              cases rb with
              | error e =>
                rw [fetchFile_https_memoerr2 c n u st sa sb ta tb resp tUrl tu e h2 hm hh hrel hm2] at h
                simp at h
              | ok typesResp =>
                rw [fetchFile_https_hdr c n u st sa sb ta tb resp typesResp tUrl tu h2 hm hh hrel hm2] at h
                cases hy : c.parseAbs (if strEndsWith typesResp.url ".d.ts" then typesResp.url
                    else typesResp.url ++ ".d.ts") with
                | none =>
                  rw [hy] at h
                  simp at h
                | some u2 =>
                  rw [hy] at h
                  simp only [Prod.mk.injEq, Except.ok.injEq] at h
                  obtain ⟨he1, he2, he3⟩ := h
                  obtain ⟨d1, hld1, hfr1⟩ := memoizedFetch_post c u.href st sa ta resp hm
                  obtain ⟨d2, hld2, hfr2⟩ := memoizedFetch_post c tu.href sa sb tb typesResp hm2
                  have hsab : SubS c sa sb := by
                    have hx := mpres_memoizedFetch c tu.href sa
                    rw [hm2] at hx
                    exact hx
                  have hsb2 : SubS c sb st2 := by
                    rw [← he1] at hsub
                    exact hsub
                  have hld1' : cacheLookup st2.cache u.href = some ⟨resp, d1⟩ :=
                    hsb2.2 _ _ (hsab.2 _ _ hld1 hfr1) hfr1
                  have hld2' : cacheLookup st2.cache tu.href = some ⟨typesResp, d2⟩ :=
                    hsb2.2 _ _ hld2 hfr2
                  have hhit1 := memoizedFetch_hit c u.href st2 ⟨resp, d1⟩ hld1' hfr1
                  have hhit2 := memoizedFetch_hit c tu.href st2 ⟨typesResp, d2⟩ hld2' hfr2
                  rw [fetchFile_https_hdr c n u st2 st2 st2 [] [] resp typesResp tUrl tu h2 hhit1 hh hrel hhit2, hy]
                  subst he3
                  exact ⟨rfl, rfl, by simp [countNet], fun q => by simp [countFill]⟩
      · by_cases h3 : u.protocol = "npm:"
        · rw [fetchFile_npm c n u st h3] at h
          rw [fetchFile_npm c n u st2 h3]
          cases hr : c.parseRel u.pathname "https://esm.sh/" with
          | none =>
            rw [hr] at h
            simp at h
          | some u2 =>
            rw [hr] at h
            dsimp only at h ⊢
            rcases hf : fetchFile c n u2 st with ⟨sa, ta, ra⟩
            rw [hf] at h
            cases ra with
            | error e => simp at h
            | ok out' =>
              simp only [Prod.mk.injEq, Except.ok.injEq] at h
              obtain ⟨he1, he2, he3⟩ := h
              have hih := ih u2 st sa st2 ta out' hf (by rw [← he1] at hsub; exact hsub)
              rcases hf2 : fetchFile c n u2 st2 with ⟨a2, b2, r2⟩
              rw [hf2] at hih
              simp only at hih
              obtain ⟨hg1, hg2, hg3, hg4⟩ := hih
              subst hg1
              rw [hg2]
              subst he3
              refine ⟨rfl, rfl, ?_, ?_⟩
              · simp [countNet_append, hg3, countNet]
              · intro q
                simp [countFill_append, hg4 q, countFill]
        · by_cases h4 : u.protocol = "jsr:"
          · rw [fetchFile_jsr c n u st h4] at h
            rw [fetchFile_jsr c n u st2 h4]
            cases hr : c.parseRel u.pathname "https://esm.sh/jsr/" with
            | none =>
              rw [hr] at h
              simp at h
            | some u2 =>
              rw [hr] at h
              dsimp only at h ⊢
              rcases hf : fetchFile c n u2 st with ⟨sa, ta, ra⟩
              rw [hf] at h
              cases ra with
              | error e => simp at h
              | ok out' =>
                simp only [Prod.mk.injEq, Except.ok.injEq] at h
                obtain ⟨he1, he2, he3⟩ := h
                have hih := ih u2 st sa st2 ta out' hf (by rw [← he1] at hsub; exact hsub)
                rcases hf2 : fetchFile c n u2 st2 with ⟨a2, b2, r2⟩
                rw [hf2] at hih
                simp only at hih
                obtain ⟨hg1, hg2, hg3, hg4⟩ := hih
                subst hg1
                rw [hg2]
                subst he3
                refine ⟨rfl, rfl, ?_, ?_⟩
                · simp [countNet_append, hg3, countNet]
                · intro q
                  simp [countFill_append, hg4 q, countFill]
          · rw [fetchFile_unsupported c n u st h1 h2 h3 h4] at h
            simp at h


/-- Inversion of a successful `loadFile`: the fetch succeeded, the
virtual path came from `asUrl ?? realUrl`, the path is present in the
final store, and the state evolved along `SubS` from the post-fetch
state. -/
theorem loadFile_ok_inv (c : Ctx) (f : Nat) (u : Url) (asUrl : Option Url)
    (st s1 : St) (δ : List Ev) (p : String)
    (h : loadFile c (f + 1) u asUrl st = (s1, δ, .ok p)) :
    ∃ st1 tr fo, fetchFile c f u st = (st1, tr, .ok fo) ∧
      urlToFakePathE (asUrl.getD fo.url) = .ok p ∧
      hasKey s1.store p = true ∧ SubS c st1 s1 := by
  simp only [loadFile, mtry, mbind, memit, mliftE, mret, mthrow, storeHas,
    storeReserve, storeFill] at h
  rcases hf : fetchFile c f u st with ⟨st1, tr, rf⟩
  rw [hf] at h
  cases rf with
  | error e => simp at h
  | ok fo =>
    dsimp only at h
    rcases hq : urlToFakePathE (asUrl.getD fo.url) with er | q
    · rw [hq] at h
      simp at h
    · rw [hq] at h
      try dsimp only at h
      cases hk : hasKey st1.store q
      · rw [hk] at h
        simp only [Bool.false_eq_true, reduceIte, mbind, storeReserve, storeFill,
          memit, mret, List.nil_append, List.append_nil] at h
        rcases ht : transformSourceFile c f fo.url fo.text ⟨setKey st1.store q "", st1.cache⟩
          with ⟨st2, tr2, rt⟩
        rw [ht] at h
        cases rt with
        | error e => simp at h
        | ok newText =>
          simp only [Prod.mk.injEq, Except.ok.injEq] at h
          obtain ⟨he1, he2, he3⟩ := h
          refine ⟨st1, tr, fo, rfl, ?_, ?_, ?_⟩
          · rw [hq, he3]
          · rw [← he1, ← he3]
            exact hasKey_setKey_self st2.store q newText
          · have s1eq : SubS c st1 ⟨setKey st1.store q "", st1.cache⟩ :=
              mpres_storeReserve c q st1
            have s2eq : SubS c (⟨setKey st1.store q "", st1.cache⟩ : St) st2 := by
              have hx := (mpres_engine c f).2.1 fo.url fo.text
                ⟨setKey st1.store q "", st1.cache⟩
              rw [ht] at hx
              exact hx
            have s3eq : SubS c st2 (⟨setKey st2.store q newText, st2.cache⟩ : St) :=
              mpres_storeFill c q newText st2
            rw [← he1]
            exact SubS_trans (SubS_trans s1eq s2eq) s3eq
      · rw [hk] at h
        simp only [reduceIte, mret, List.nil_append, List.append_nil] at h
        simp only [Prod.mk.injEq, Except.ok.injEq] at h
        obtain ⟨he1, he2, he3⟩ := h
        refine ⟨st1, tr, fo, rfl, ?_, ?_, ?_⟩
        · rw [hq, he3]
        · rw [← he1, ← he3]
          exact hk
        · rw [← he1]
          exact SubS_refl c st1


/-- C3 as amended: a second sequential `loadFile` of the same URL
returns the identical virtual path with the state unchanged, performs
no network fetch and records no content write (the transform does not
run again); the re-dispatch of the fetch itself (a repeated disk read
for `file:` URLs) is what the counterexample exhibits. -/
theorem c3_sequential_load_idempotent (c : Ctx) (f : Nat) (u : Url) (st s1 : St) (δ1 : List Ev)
    (p : String)
    (h : loadFile c (f + 1) u none st = (s1, δ1, .ok p)) :
    (loadFile c (f + 1) u none s1).1 = s1 ∧
    (loadFile c (f + 1) u none s1).2.2 = .ok p ∧
    countNet (loadFile c (f + 1) u none s1).2.1 = 0 ∧
    (∀ q, countFill (loadFile c (f + 1) u none s1).2.1 q = 0) := by
  obtain ⟨st1, tr, fo, hf, hq, hkey, hsub⟩ := loadFile_ok_inv c f u none st s1 δ1 p h
  have hrep := fetchFile_replay c f u st st1 s1 tr fo hf hsub
  rcases hf2 : fetchFile c f u s1 with ⟨a2, b2, r2⟩
  rw [hf2] at hrep
  simp only at hrep
  obtain ⟨hg1, hg2, hg3, hg4⟩ := hrep
  subst hg1
  rw [hg2] at hf2
  have hfound := loadFile_found c f u none _ _ b2 fo p hf2 hq hkey
  rw [hfound]
  refine ⟨rfl, rfl, ?_, ?_⟩
  · simp [countNet_append, hg3, countNet]
  · intro q
    simp [countFill_append, hg4 q, countFill]

/-- An empty import map never matches. -/
theorem mapResolve_empty (c : Ctx) (hm : c.importMap = ⟨[], []⟩)
    (a b : String) : mapResolve c a b = .ok none := by
  unfold mapResolve
  rw [hm]
  rfl

/-- A specifier that parses as an absolute URL is not bare. -/
theorem isBare_false_of_parse (c : Ctx) (sp : String) (u : Url)
    (hpa : c.parseAbs sp = some u) : isBareSpecifier c sp = false := by
  unfold isBareSpecifier
  rw [hpa]
  rfl

/-- `#urlToFakePath` of an `https:` URL. -/
theorem urlToFakePath_https (u : Url) (hp : u.protocol = "https:") :
    urlToFakePathE u = .ok ("/https/" ++ u.host ++ u.pathname) := by
  unfold urlToFakePathE
  rw [hp]
  rfl

/-- `#urlToFakePath` of a `file:` URL. -/
theorem urlToFakePath_file (u : Url) (hp : u.protocol = "file:") :
    urlToFakePathE u = .ok u.pathname := by
  unfold urlToFakePathE
  rw [hp]
  rfl

/-- Setting a key makes its value retrievable. -/
theorem getKey_setKey_self (l : List (String × String)) (k v : String) :
    getKey (setKey l k v) k = some v := by
  induction l with
  | nil => simp [setKey, getKey]
  | cons kv rest ih =>
    rcases kv with ⟨k', v'⟩
    by_cases h : k' == k
    · simp [setKey, getKey, h]
    · simp only [setKey, h, Bool.false_eq_true]
      simp [getKey, h, ih]

/-- Key presence after a set. -/
theorem hasKey_setKey_eq (l : List (String × String)) (k v k' : String) :
    hasKey (setKey l k v) k' = (hasKey l k' || (k == k')) := by
  induction l with
  | nil => simp [setKey, hasKey]
  | cons kv rest ih =>
    rcases kv with ⟨k0, v0⟩
    by_cases h : k0 == k
    · have hk : k0 = k := by simpa using h
      simp [setKey, hasKey, h, hk, Bool.or_comm, Bool.or_assoc, Bool.or_self]
      intro h1
      exact Or.inr h1
    · simp only [setKey, h, Bool.false_eq_true]
      simp [hasKey, ih, Bool.or_assoc]

/-- `memoizedFetch` never writes file contents. -/
theorem memoizedFetch_no_fill (c : Ctx) (href : String) (st : St) (q : String) :
    countFill (memoizedFetch c href st).2.1 q = 0 := by
  unfold memoizedFetch
  rcases hcl : cacheLookup st.cache href with _ | e0
  · rcases hn : c.net href with _ | r <;> simp [countFill]
  · by_cases hstale : c.now - e0.date > 86400000
    · simp only [hstale, if_true]
      rcases hn : c.net href with _ | r <;> simp [countFill]
    · simp only [hstale, if_false]
      simp [countFill]

/-- A computation whose catch handler returns a constant value never
surfaces an error. -/
theorem mtry_mret_ok {α : Type} (m : M α) (a : α) (st : St) :
    ∃ v, ((mtry m (fun _ => mret a)) st).2.2 = .ok v := by
  unfold mtry mret
  rcases hm : m st with ⟨s', t', r'⟩
  cases r' with
  | ok b => exact ⟨b, rfl⟩
  | error e => exact ⟨a, rfl⟩

/-- `#transformSpecifier` never lets a failure escape: every call
returns some rewrite value. -/
theorem tspec_never_throws (c : Ctx) (g : Nat) (su : Url) (sp : String) (st : St) :
    ∃ v, (transformSpecifier c (g + 1) su sp st).2.2 = .ok v := by
  simp only [transformSpecifier]
  exact mtry_mret_ok _ _ _

/-- An import-map entry that matches (exactly, or as a
separator-terminated prefix longer than the best so far) replaces the
running candidate. -/
theorem stepImports_hit (c : Ctx) (spec : String) (st : RState) (p t : String) (n : Nat)
    (hn : strLen st.resolvedPfx = n)
    (h : (spec == p || (strEndsWith p "/" && strStartsWith spec p &&
      decide (n < strLen p))) = true) :
    stepImports c spec st (p, t) =
      match parseAbsE c (t ++ strDrop spec (strLen p)) with
      | .ok u => .ok ⟨st.resolvedScope, p, some u⟩
      | .error er => .error er := by
  unfold stepImports
  rw [← hn] at h
  rw [if_pos h]
  cases hp : parseAbsE c (t ++ strDrop spec (strLen p)) <;>
    simp [hp, Except.bind, Bind.bind]

/-- An import-map entry that does not match leaves the candidate
unchanged. -/
theorem stepImports_skip (c : Ctx) (spec : String) (st : RState) (p t : String) (n : Nat)
    (hn : strLen st.resolvedPfx = n)
    (h : (spec == p || (strEndsWith p "/" && strStartsWith spec p &&
      decide (n < strLen p))) = false) :
    stepImports c spec st (p, t) = .ok st := by
  unfold stepImports
  rw [← hn] at h
  rw [if_neg (by simp [h])]

/-- C7: longest-prefix-wins for top-level import-map entries.  With
the two entries `a/ → X` and `a/b/ → Y` present in either order (and
no scopes), the specifier `a/b/c` resolves through the longer prefix:
the result is exactly the parse of `Y ++ "c"`, never `X ++ "b/c"`,
independent of the source URL. -/
theorem c7_longest_prefix_wins (c : Ctx) (X Y src : String)
    (himp : c.importMap.imports = [("a/", X), ("a/b/", Y)] ∨
            c.importMap.imports = [("a/b/", Y), ("a/", X)])
    (hsc : c.importMap.scopes = [])
    (hX : (c.parseAbs (X ++ "b/c")).isSome = true) :
    mapResolve c src "a/b/c" =
      match c.parseAbs (Y ++ "c") with
      | some u => Except.ok (some u)
      | none => Except.error (Err.urlParse (Y ++ "c")) := by
  have hd2 : strDrop "a/b/c" (strLen "a/") = "b/c" := by decide
  have hd4 : strDrop "a/b/c" (strLen "a/b/") = "c" := by decide
  unfold mapResolve
  rw [hsc]
  rcases himp with himp | himp <;> rw [himp]
  · have h1 := stepImports_hit c "a/b/c" ⟨"", "", none⟩ "a/" X 0 rfl (by decide)
    rw [hd2] at h1
    obtain ⟨ux, hux⟩ := Option.isSome_iff_exists.mp hX
    simp only [List.foldlM, h1, parseAbsE, hux, Except.bind, Bind.bind]
    have h2 := stepImports_hit c "a/b/c" ⟨"", "a/", some ux⟩ "a/b/" Y 2 rfl (by decide)
    rw [hd4] at h2
    simp only [h2, parseAbsE]
    cases hy : c.parseAbs (Y ++ "c") <;> simp [Except.bind, Bind.bind, pure, Except.pure]
  · have h1 := stepImports_hit c "a/b/c" ⟨"", "", none⟩ "a/b/" Y 0 rfl (by decide)
    rw [hd4] at h1
    simp only [List.foldlM, h1, parseAbsE]
    cases hy : c.parseAbs (Y ++ "c")
    · simp [Except.bind, Bind.bind]
    · rename_i uy
      have h2 := stepImports_skip c "a/b/c" ⟨"", "a/b/", some uy⟩ "a/" X 4 rfl (by decide)
      simp [Except.bind, Bind.bind, h2, pure, Except.pure]

/-- Witness for C7 at a concrete map: with
`{a/ → https://x.example/, a/b/ → https://y.example/}` the specifier
`a/b/c` resolves to `https://y.example/c`. -/
theorem c7_longest_prefix_wins_witness :
    mapResolve longestPfxCtx "https://app.example/mod.ts" "a/b/c" = .ok (some uYc) := by
  have h := c7_longest_prefix_wins longestPfxCtx "https://x.example/" "https://y.example/"
    "https://app.example/mod.ts" (Or.inl (by decide)) (by decide) (by decide)
  exact h.trans (by decide)

/-- C1 counterexample: the longest (only) scope matches the source URL
and contains the entry `a/ → https://y.example/` matching the
specifier `a/b/c` as a separator-terminated prefix, yet resolution
uses the top-level entry `a/b/ → https://x.example/` because the
scope loop reuses the top-level `resolvedPrefix` in its length guard —
the scoped entry does not override. -/
theorem c1_scope_override_cex :
    mapResolve scopeCexCtx "https://s.example/mod.ts" "a/b/c" = .ok (some uXc) ∧
    strStartsWith "https://s.example/mod.ts" "https://s.example/" = true ∧
    strEndsWith "a/" "/" = true ∧ strStartsWith "a/b/c" "a/" = true ∧
    (Except.ok (some uXc) : Except Err (Option Url)) ≠ .ok (some uYbc) := by
  decide

/-- C1 as amended: with one top-level entry `pt → X` and one matching
scope with entry `ps → Y`, both matching the specifier as
separator-terminated (non-exact) prefixes, the scoped entry overrides
the top-level entry exactly when its prefix is strictly longer;
otherwise the top-level match is kept, regardless of scoping. -/
theorem c1_scope_override_condition (c : Ctx) (pt X s ps Y src spec : String)
    (himp : c.importMap.imports = [(pt, X)])
    (hsc : c.importMap.scopes = [(s, [(ps, Y)])])
    (hsrc : strStartsWith src s = true)
    (hslen : 0 < strLen s)
    (hpt1 : (spec == pt) = false) (hpt2 : strEndsWith pt "/" = true)
    (hpt3 : strStartsWith spec pt = true) (hpt4 : 0 < strLen pt)
    (hps1 : (spec == ps) = false) (hps2 : strEndsWith ps "/" = true)
    (hps3 : strStartsWith spec ps = true)
    (hX : (c.parseAbs (X ++ strDrop spec (strLen pt))).isSome = true) :
    mapResolve c src spec =
      if strLen pt < strLen ps then
        match c.parseAbs (Y ++ strDrop spec (strLen ps)) with
        | some u => Except.ok (some u)
        | none => Except.error (Err.urlParse (Y ++ strDrop spec (strLen ps)))
      else Except.ok (c.parseAbs (X ++ strDrop spec (strLen pt))) := by
  obtain ⟨ux, hux⟩ := Option.isSome_iff_exists.mp hX
  have h1 := stepImports_hit c spec ⟨"", "", none⟩ pt X 0 rfl
    (by simp [hpt1, hpt2, hpt3, hpt4])
  have hs0 : strLen "" = 0 := by decide
  unfold mapResolve stepScope
  rw [himp, hsc]
  by_cases hlen : strLen pt < strLen ps
  · cases hy : c.parseAbs (Y ++ strDrop spec (strLen ps)) <;>
      simp [List.foldlM, h1, parseAbsE, hux, hy, Except.bind, Bind.bind, pure,
        Except.pure, hsrc, hslen, hs0, hps1, hps2, hps3, hlen]
  · simp [List.foldlM, h1, parseAbsE, hux, Except.bind, Bind.bind, pure,
      Except.pure, hsrc, hslen, hs0, hps1, hps2, hps3, hlen]

/-- Witness for the amended C1: a scoped entry with a strictly longer
prefix (`a/b/` against top-level `a/`) does override. -/
theorem c1_scope_override_condition_witness :
    mapResolve scopeWitCtx "https://s.example/mod.ts" "a/b/c" = .ok (some uYc) := by
  have h := c1_scope_override_condition scopeWitCtx "a/" "https://x.example/"
    "https://s.example/" "a/b/" "https://y.example/" "https://s.example/mod.ts" "a/b/c"
    (by decide) (by decide) (by decide) (by decide) (by decide) (by decide)
    (by decide) (by decide) (by decide) (by decide) (by decide) (by decide)
  exact h.trans (by decide)

/-- C2 counterexample: loading a not-yet-seen HTTPS leaf module, the
run reserves its virtual path only AFTER suspension points have
already occurred — the fetch is awaited before the path is derived,
probed and reserved, so the reservation does not precede the
routine's first suspension point. -/
theorem c2_reserve_after_await_cex :
    (loadFile leafCtx 3 uHa none emptyS).2.2 = .ok "/https/e.x/a.ts" ∧
    hasReserve (loadFile leafCtx 3 uHa none emptyS).2.1 "/https/e.x/a.ts" = true ∧
    awaitBeforeReserve (loadFile leafCtx 3 uHa none emptyS).2.1 "/https/e.x/a.ts" = true := by
  decide

/-- C2 as amended: in every run of `loadFile` (any context, fuel, URL
and state), a negative `has` probe of the store is immediately
followed — with no intervening event, and in particular no suspension
point — by the reservation write for the same virtual path; the
check-and-reserve pair is atomic even though it happens after the
awaited fetch. -/
theorem c2_reserve_adjacent_to_probe (c : Ctx) (f : Nat) (u : Url)
    (a : Option Url) (st : St) :
    noDangling (loadFile c f u a st).2.1 = true :=
  ((ttok_engine c f).1 u a st).1

/-- C3 counterexample: two sequential loads of the same local-file
URL both succeed with the same virtual path, but the underlying disk
read runs twice — only the transform is guarded by the store, and
only network fetches are memoized, so the fetch is not executed
exactly once across the two calls. -/
theorem c3_file_fetch_twice_cex :
    (loadFile fileCtx 3 uFa none emptyS).2.2 = .ok "/a.ts" ∧
    (loadFile fileCtx 3 uFa none (loadFile fileCtx 3 uFa none emptyS).1).2.2 = .ok "/a.ts" ∧
    countDisk ((loadFile fileCtx 3 uFa none emptyS).2.1 ++
      (loadFile fileCtx 3 uFa none (loadFile fileCtx 3 uFa none emptyS).1).2.1) = 2 ∧
    countFill ((loadFile fileCtx 3 uFa none emptyS).2.1 ++
      (loadFile fileCtx 3 uFa none (loadFile fileCtx 3 uFa none emptyS).1).2.1) "/a.ts" = 1 := by
  decide

/-- C6: the guessed-suffix code bug.  An HTTPS response with no
type-declaration header whose URL has no recognizable script extension
comes back from `#fetchFile` with its URL unchanged: the source
computes `respUrl += ".ts"` into a local variable but then returns
`new URL(resp.url)`, discarding the guess, so the returned URL does
not end in `.ts` as the specification requires. -/
theorem c6_guessed_suffix_discarded :
    (fetchFile noExtCtx 2 uMod emptyS).2.2 = .ok ⟨"modcode", uMod⟩ ∧
    strEndsWith uMod.href ".ts" = false ∧
    hasScriptExt "https://e.x/mod" = false := by
  decide

/-- C9: dispatch for a specifier not matched by any import-map entry.
If it is bare (not URL-parseable, not starting with `.` or `/`), the
bare-specifier error is raised and caught inside this branch only:
the original specifier is returned with no state change and no load
attempted.  Otherwise the specifier is resolved against the source
URL by the platform URL resolver and that URL is loaded, the load
result (or, on load failure, the original specifier) becoming the
rewrite value. -/
theorem c9_unmatched_specifier_dispatch (c : Ctx) (f : Nat) (su : Url)
    (sp : String) (st : St)
    (hmap : mapResolve c su.href sp = .ok none) :
    transformSpecifier c (f + 1) su sp st =
      if isBareSpecifier c sp then (st, [], .ok sp)
      else
        match c.parseRel sp su.href with
        | none => (st, [], .ok sp)
        | some ru =>
          match loadFile c f ru none st with
          | (st', tr, .ok p) => (st', tr ++ [.awaitMark], .ok p)
          | (st', tr, .error _) => (st', tr, .ok sp) :=
  tspec_dispatch c f su sp st hmap

/-- Witness for C9: the bare specifier `lodash` under an empty import
map comes straight back with no events and no state change. -/
theorem c9_unmatched_specifier_dispatch_witness :
    transformSpecifier baseCtx 3 uFmain "lodash" emptyS = (emptyS, [], .ok "lodash") := by
  have h := c9_unmatched_specifier_dispatch baseCtx 2 uFmain "lodash" emptyS (by decide)
  exact h.trans (by decide)

/-- Witness for the amended C3: replaying the leaf-module load from
its post-load state returns the same path with no fetch and no write. -/
theorem c3_sequential_load_idempotent_witness :
    (loadFile leafCtx 3 uHa none
      (⟨[("/https/e.x/a.ts", "code")],
        [("https://e.x/a.ts", ⟨⟨"code", "https://e.x/a.ts", []⟩, 0⟩)]⟩ : St)).1 =
      (⟨[("/https/e.x/a.ts", "code")],
        [("https://e.x/a.ts", ⟨⟨"code", "https://e.x/a.ts", []⟩, 0⟩)]⟩ : St) ∧
    (loadFile leafCtx 3 uHa none
      (⟨[("/https/e.x/a.ts", "code")],
        [("https://e.x/a.ts", ⟨⟨"code", "https://e.x/a.ts", []⟩, 0⟩)]⟩ : St)).2.2 =
      .ok "/https/e.x/a.ts" ∧
    countNet (loadFile leafCtx 3 uHa none
      (⟨[("/https/e.x/a.ts", "code")],
        [("https://e.x/a.ts", ⟨⟨"code", "https://e.x/a.ts", []⟩, 0⟩)]⟩ : St)).2.1 = 0 ∧
    (∀ q, countFill (loadFile leafCtx 3 uHa none
      (⟨[("/https/e.x/a.ts", "code")],
        [("https://e.x/a.ts", ⟨⟨"code", "https://e.x/a.ts", []⟩, 0⟩)]⟩ : St)).2.1 q = 0) := by
  exact c3_sequential_load_idempotent leafCtx 2 uHa emptyS
    (⟨[("/https/e.x/a.ts", "code")],
      [("https://e.x/a.ts", ⟨⟨"code", "https://e.x/a.ts", []⟩, 0⟩)]⟩ : St)
    [.netFetch "https://e.x/a.ts", .awaitMark, .awaitMark,
     .storeCheck "/https/e.x/a.ts" false, .reserve "/https/e.x/a.ts",
     .awaitMark, .awaitMark, .awaitMark, .awaitMark,
     .fill "/https/e.x/a.ts" "code"]
    "/https/e.x/a.ts" (by decide)

/-- C4 counterexample: a local file whose only import, the declaration
specifier `./x.d.ts`, fails to load.  The containing file still loads
(the error is caught inside the specifier transform), but an
overwrite IS recorded for the specifier span: the stored text has the
specifier rewritten to `./x.js` by the declaration-to-runtime suffix
rewrite, so the original text is not left unchanged. -/
theorem c4_failed_dts_specifier_rewritten_cex :
    (loadFile dtsFailCtx 5 uFmain none emptyS).2.2 = .ok "/main.ts" ∧
    getKey (loadFile dtsFailCtx 5 uFmain none emptyS).1.store "/main.ts" =
      some "import \"./x.js\";" ∧
    "import \"./x.js\";" ≠ "import \"./x.d.ts\";" := by
  decide

/-- C4 as amended: when resolving or loading a specifier site fails,
the failure is caught locally — the transform completes and returns a
rewritten text in which the failing site's span `[fullStart + 2,
endPos - 1)` is overwritten with `toFakeJs` of the ORIGINAL specifier
(textually identical unless the specifier ends in `.d.ts`, which
becomes `.js`), and the state is exactly the failing load's final
state. -/
theorem c4_failed_specifier_contained (c : Ctx) (f : Nat) (su ru : Url)
    (text : String) (st st1 : St) (tr : List Ev) (site : Site) (er : Err)
    (hscan : c.scan text = ⟨none, [], [], [site]⟩)
    (hmap : mapResolve c su.href site.text = .ok none)
    (hb : isBareSpecifier c site.text = false)
    (hrel : c.parseRel site.text su.href = some ru)
    (hl : loadFile c f ru none st = (st1, tr, .error er)) :
    (transformSourceFile c (f + 2) su text st).1 = st1 ∧
    (transformSourceFile c (f + 2) su text st).2.2 =
      .ok (applyEdits text [(site.fullStart + 2, site.endPos - 1, toFakeJs site.text)]) := by
  have hts := tspec_load_err c f su site.text st st1 tr ru er hmap hb hrel hl
  have hT := transform_single c (f + 1) su text st st1 tr site site.text hscan hts
  rw [show f + 2 = f + 1 + 1 from rfl, hT]
  exact ⟨rfl, rfl⟩

/-- Witness for the amended C4 at the concrete failing-declaration
scenario: the transform completes and records the `.d.ts` → `.js`
rewrite of the failing specifier. -/
theorem c4_failed_specifier_contained_witness :
    (transformSourceFile dtsFailCtx 4 uFmain "import \"./x.d.ts\";"
      (⟨[("/main.ts", "")], []⟩ : St)).1 = (⟨[("/main.ts", "")], []⟩ : St) ∧
    (transformSourceFile dtsFailCtx 4 uFmain "import \"./x.d.ts\";"
      (⟨[("/main.ts", "")], []⟩ : St)).2.2 = .ok "import \"./x.js\";" := by
  have h := c4_failed_specifier_contained dtsFailCtx 2 uFmain uFxd
    "import \"./x.d.ts\";" (⟨[("/main.ts", "")], []⟩ : St)
    (⟨[("/main.ts", "")], []⟩ : St) [.diskRead "file:///x.d.ts"]
    ⟨6, 17, "./x.d.ts"⟩ (.loadFailed "file:///x.d.ts" (.fetchFail "file:///x.d.ts"))
    (by decide) (by decide) (by decide) (by decide) (by decide)
  exact ⟨h.1, h.2.trans (by decide)⟩

/-- C5 counterexample: a remote module advertising a companion type
declaration is stored as the declaration's text — but under the
virtual path derived from the DECLARATION URL, not under the path of
the originally requested specifier, which is absent from the store. -/
theorem c5_decl_path_not_original_cex :
    (loadFile typesCtx 5 uFoo none emptyS).2.2 = .ok "/https/e.x/foo.d.ts" ∧
    getKey (loadFile typesCtx 5 uFoo none emptyS).1.store "/https/e.x/foo.d.ts" =
      some "declcode" ∧
    hasKey (loadFile typesCtx 5 uFoo none emptyS).1.store "/https/e.x/foo" = false ∧
    countNet (loadFile typesCtx 5 uFoo none emptyS).2.1 = 2 := by
  decide

/-- C5 as amended: a secure-HTTP fetch whose response carries the
type-declaration header issues a second fetch of the declaration URL;
the declaration's text becomes the stored content, stored exactly
once under the virtual path derived from the declaration's resolved
URL (with a `.d.ts` suffix forced when absent), which is also the
path the load returns. -/
theorem c5_types_stored_under_decl_path (c : Ctx) (f : Nat) (u tu u2 : Url)
    (st st1 st2 : St) (tr tr2 : List Ev) (resp typesResp : NetResp)
    (tUrl p : String)
    (hp : u.protocol = "https:")
    (hm : memoizedFetch c u.href st = (st1, tr, .ok resp))
    (hh : resp.headers.lookup "x-typescript-types" = some tUrl)
    (hrel : c.parseRel tUrl resp.url = some tu)
    (hm2 : memoizedFetch c tu.href st1 = (st2, tr2, .ok typesResp))
    (hpa : c.parseAbs (if strEndsWith typesResp.url ".d.ts" then typesResp.url
      else typesResp.url ++ ".d.ts") = some u2)
    (hfp : urlToFakePathE u2 = .ok p)
    (hhas : hasKey st2.store p = false)
    (hscan : c.scan typesResp.text = ⟨none, [], [], []⟩) :
    (loadFile c (f + 2) u none st).2.2 = .ok p ∧
    getKey (loadFile c (f + 2) u none st).1.store p = some typesResp.text ∧
    countFill (loadFile c (f + 2) u none st).2.1 p = 1 := by
  have hfetch := fetchFile_https_hdr c f u st st1 st2 tr tr2 resp typesResp
    tUrl tu hp hm hh hrel hm2
  rw [hpa] at hfetch
  dsimp only at hfetch
  have htr := transform_empty c f u2 typesResp.text
    (⟨setKey st2.store p "", st2.cache⟩ : St) hscan
  have hload := loadFile_new c (f + 1) u none st st2 _ _ _ ⟨typesResp.text, u2⟩
    p typesResp.text hfetch (by simpa using hfp) hhas htr
  have hnf1 : countFill tr p = 0 := by
    have hx := memoizedFetch_no_fill c u.href st p
    rw [hm] at hx
    simpa using hx
  have hnf2 : countFill tr2 p = 0 := by
    have hx := memoizedFetch_no_fill c tu.href st1 p
    rw [hm2] at hx
    simpa using hx
  rw [show f + 2 = f + 1 + 1 from rfl, hload]
  refine ⟨rfl, ?_, ?_⟩
  · exact getKey_setKey_self _ p typesResp.text
  · simp [countFill_append, countFill, hnf1, hnf2, beq_self_eq_true]

/-- Witness for the amended C5 at the concrete declaration scenario. -/
theorem c5_types_stored_under_decl_path_witness :
    (loadFile typesCtx 5 uFoo none emptyS).2.2 = .ok "/https/e.x/foo.d.ts" ∧
    getKey (loadFile typesCtx 5 uFoo none emptyS).1.store "/https/e.x/foo.d.ts" =
      some "declcode" ∧
    countFill (loadFile typesCtx 5 uFoo none emptyS).2.1 "/https/e.x/foo.d.ts" = 1 := by
  have h := c5_types_stored_under_decl_path typesCtx 3 uFoo uFooDts uFooDts
    emptyS
    (⟨[], [("https://e.x/foo",
      ⟨⟨"srccode", "https://e.x/foo", [("x-typescript-types", "https://e.x/foo.d.ts")]⟩, 0⟩)]⟩ : St)
    (⟨[], [("https://e.x/foo",
      ⟨⟨"srccode", "https://e.x/foo", [("x-typescript-types", "https://e.x/foo.d.ts")]⟩, 0⟩),
      ("https://e.x/foo.d.ts", ⟨⟨"declcode", "https://e.x/foo.d.ts", []⟩, 0⟩)]⟩ : St)
    [.netFetch "https://e.x/foo"] [.netFetch "https://e.x/foo.d.ts"]
    ⟨"srccode", "https://e.x/foo", [("x-typescript-types", "https://e.x/foo.d.ts")]⟩
    ⟨"declcode", "https://e.x/foo.d.ts", []⟩
    "https://e.x/foo.d.ts" "/https/e.x/foo.d.ts"
    (by decide) (by decide) (by decide) (by decide) (by decide) (by decide)
    (by decide) (by decide) (by decide)
  exact h

/-- C8: a pair of mutually-importing HTTPS modules loads to
completion within a fixed recursion budget (no unbounded recursion
despite the cycle: the reservation makes the cyclic third load return
immediately), and the final store holds exactly the two virtual
paths, each with its content written exactly once. -/
theorem c8_cyclic_imports_load_once (c : Ctx) (f : Nat) (u1 u2 : Url)
    (t1 t2 : String) (fs1 e1 fs2 e2 : Nat)
    (hq1 : u1.protocol = "https:") (hq2 : u2.protocol = "https:")
    (hneq : (u1.href == u2.href) = false)
    (hnep : (("/https/" ++ u1.host ++ u1.pathname) ==
      ("/https/" ++ u2.host ++ u2.pathname)) = false)
    (hn1 : c.net u1.href = some ⟨t1, u1.href, []⟩)
    (hn2 : c.net u2.href = some ⟨t2, u2.href, []⟩)
    (hpa1 : c.parseAbs u1.href = some u1)
    (hpa2 : c.parseAbs u2.href = some u2)
    (hr21 : c.parseRel u2.href u1.href = some u2)
    (hr12 : c.parseRel u1.href u2.href = some u1)
    (hmap : c.importMap = ⟨[], []⟩)
    (hs1 : c.scan t1 = ⟨none, [], [], [⟨fs1, e1, u2.href⟩]⟩)
    (hs2 : c.scan t2 = ⟨none, [], [], [⟨fs2, e2, u1.href⟩]⟩) :
    (loadFile c (f + 8) u1 none emptyS).2.2 =
      .ok ("/https/" ++ u1.host ++ u1.pathname) ∧
    ((loadFile c (f + 8) u1 none emptyS).1.store).map Prod.fst =
      ["/https/" ++ u1.host ++ u1.pathname, "/https/" ++ u2.host ++ u2.pathname] ∧
    countFill (loadFile c (f + 8) u1 none emptyS).2.1
      ("/https/" ++ u1.host ++ u1.pathname) = 1 ∧
    countFill (loadFile c (f + 8) u1 none emptyS).2.1
      ("/https/" ++ u2.host ++ u2.pathname) = 1 := by
  have hneq' : (u2.href == u1.href) = false := by
    refine beq_eq_false_iff_ne.mpr ?_
    have := beq_eq_false_iff_ne.mp hneq
    exact fun hx => this hx.symm
  have hfp1 : urlToFakePathE u1 = .ok ("/https/" ++ u1.host ++ u1.pathname) :=
    urlToFakePath_https u1 hq1
  have hfp2 : urlToFakePathE u2 = .ok ("/https/" ++ u2.host ++ u2.pathname) :=
    urlToFakePath_https u2 hq2
  have m1 : memoizedFetch c u1.href emptyS =
      (⟨[], [(u1.href, ⟨⟨t1, u1.href, []⟩, c.now⟩)]⟩, [.netFetch u1.href],
        .ok ⟨t1, u1.href, []⟩) := by
    have hx := memoizedFetch_miss c u1.href emptyS ⟨t1, u1.href, []⟩ rfl hn1
    simpa [lowerHeaders, cacheSet, emptyS] using hx
  have f1 : fetchFile c (f + 7) u1 emptyS =
      (⟨[], [(u1.href, ⟨⟨t1, u1.href, []⟩, c.now⟩)]⟩,
       [.netFetch u1.href, .awaitMark], .ok ⟨t1, u1⟩) := by
    have hx := fetchFile_https_nohdr c (f + 6) u1 emptyS _ _ _ hq1 m1 rfl
    rw [hpa1] at hx
    simpa using hx
  have m2 : memoizedFetch c u2.href
      (⟨[("/https/" ++ u1.host ++ u1.pathname, "")],
        [(u1.href, ⟨⟨t1, u1.href, []⟩, c.now⟩)]⟩ : St) =
      (⟨[("/https/" ++ u1.host ++ u1.pathname, "")],
        [(u1.href, ⟨⟨t1, u1.href, []⟩, c.now⟩), (u2.href, ⟨⟨t2, u2.href, []⟩, c.now⟩)]⟩,
       [.netFetch u2.href], .ok ⟨t2, u2.href, []⟩) := by
    have hx := memoizedFetch_miss c u2.href
      (⟨[("/https/" ++ u1.host ++ u1.pathname, "")],
        [(u1.href, ⟨⟨t1, u1.href, []⟩, c.now⟩)]⟩ : St) ⟨t2, u2.href, []⟩
      (by simp [cacheLookup, hneq]) hn2
    simpa [lowerHeaders, cacheSet, hneq] using hx
  have f2 : fetchFile c (f + 4) u2
      (⟨[("/https/" ++ u1.host ++ u1.pathname, "")],
        [(u1.href, ⟨⟨t1, u1.href, []⟩, c.now⟩)]⟩ : St) =
      (⟨[("/https/" ++ u1.host ++ u1.pathname, "")],
        [(u1.href, ⟨⟨t1, u1.href, []⟩, c.now⟩), (u2.href, ⟨⟨t2, u2.href, []⟩, c.now⟩)]⟩,
       [.netFetch u2.href, .awaitMark], .ok ⟨t2, u2⟩) := by
    have hx := fetchFile_https_nohdr c (f + 3) u2 _ _ _ _ hq2 m2 rfl
    rw [hpa2] at hx
    simpa using hx
  have m3 : memoizedFetch c u1.href
      (⟨[("/https/" ++ u1.host ++ u1.pathname, ""),
         ("/https/" ++ u2.host ++ u2.pathname, "")],
        [(u1.href, ⟨⟨t1, u1.href, []⟩, c.now⟩), (u2.href, ⟨⟨t2, u2.href, []⟩, c.now⟩)]⟩ : St) =
      (⟨[("/https/" ++ u1.host ++ u1.pathname, ""),
         ("/https/" ++ u2.host ++ u2.pathname, "")],
        [(u1.href, ⟨⟨t1, u1.href, []⟩, c.now⟩), (u2.href, ⟨⟨t2, u2.href, []⟩, c.now⟩)]⟩,
       [], .ok ⟨t1, u1.href, []⟩) := by
    have hx := memoizedFetch_hit c u1.href
      (⟨[("/https/" ++ u1.host ++ u1.pathname, ""),
         ("/https/" ++ u2.host ++ u2.pathname, "")],
        [(u1.href, ⟨⟨t1, u1.href, []⟩, c.now⟩), (u2.href, ⟨⟨t2, u2.href, []⟩, c.now⟩)]⟩ : St)
      ⟨⟨t1, u1.href, []⟩, c.now⟩
      (by simp [cacheLookup]) (by simp)
    simpa using hx
  have f3 : fetchFile c (f + 1) u1
      (⟨[("/https/" ++ u1.host ++ u1.pathname, ""),
         ("/https/" ++ u2.host ++ u2.pathname, "")],
        [(u1.href, ⟨⟨t1, u1.href, []⟩, c.now⟩), (u2.href, ⟨⟨t2, u2.href, []⟩, c.now⟩)]⟩ : St) =
      (⟨[("/https/" ++ u1.host ++ u1.pathname, ""),
         ("/https/" ++ u2.host ++ u2.pathname, "")],
        [(u1.href, ⟨⟨t1, u1.href, []⟩, c.now⟩), (u2.href, ⟨⟨t2, u2.href, []⟩, c.now⟩)]⟩,
       [.awaitMark], .ok ⟨t1, u1⟩) := by
    have hx := fetchFile_https_nohdr c f u1 _ _ _ _ hq1 m3 rfl
    rw [hpa1] at hx
    simpa using hx
  have L3 : loadFile c (f + 2) u1 none
      (⟨[("/https/" ++ u1.host ++ u1.pathname, ""),
         ("/https/" ++ u2.host ++ u2.pathname, "")],
        [(u1.href, ⟨⟨t1, u1.href, []⟩, c.now⟩), (u2.href, ⟨⟨t2, u2.href, []⟩, c.now⟩)]⟩ : St) =
      (⟨[("/https/" ++ u1.host ++ u1.pathname, ""),
         ("/https/" ++ u2.host ++ u2.pathname, "")],
        [(u1.href, ⟨⟨t1, u1.href, []⟩, c.now⟩), (u2.href, ⟨⟨t2, u2.href, []⟩, c.now⟩)]⟩,
       [.awaitMark, .awaitMark,
        .storeCheck ("/https/" ++ u1.host ++ u1.pathname) true],
       .ok ("/https/" ++ u1.host ++ u1.pathname)) := by
    have hx := loadFile_found c (f + 1) u1 none _ _ _ ⟨t1, u1⟩
      ("/https/" ++ u1.host ++ u1.pathname) f3 (by simpa using hfp1)
      (by simp [hasKey])
    simpa using hx
  have TS2 : transformSpecifier c (f + 3) u2 u1.href
      (⟨[("/https/" ++ u1.host ++ u1.pathname, ""),
         ("/https/" ++ u2.host ++ u2.pathname, "")],
        [(u1.href, ⟨⟨t1, u1.href, []⟩, c.now⟩), (u2.href, ⟨⟨t2, u2.href, []⟩, c.now⟩)]⟩ : St) =
      (⟨[("/https/" ++ u1.host ++ u1.pathname, ""),
         ("/https/" ++ u2.host ++ u2.pathname, "")],
        [(u1.href, ⟨⟨t1, u1.href, []⟩, c.now⟩), (u2.href, ⟨⟨t2, u2.href, []⟩, c.now⟩)]⟩,
       [.awaitMark, .awaitMark,
        .storeCheck ("/https/" ++ u1.host ++ u1.pathname) true, .awaitMark],
       .ok ("/https/" ++ u1.host ++ u1.pathname)) := by
    have hx := tspec_load_ok c (f + 2) u2 u1.href _ _ _ u1
      ("/https/" ++ u1.host ++ u1.pathname)
      (mapResolve_empty c hmap u2.href u1.href)
      (isBare_false_of_parse c u1.href u1 hpa1) hr12 L3
    simpa using hx
  have T2 : transformSourceFile c (f + 4) u2 t2
      (⟨[("/https/" ++ u1.host ++ u1.pathname, ""),
         ("/https/" ++ u2.host ++ u2.pathname, "")],
        [(u1.href, ⟨⟨t1, u1.href, []⟩, c.now⟩), (u2.href, ⟨⟨t2, u2.href, []⟩, c.now⟩)]⟩ : St) =
      (⟨[("/https/" ++ u1.host ++ u1.pathname, ""),
         ("/https/" ++ u2.host ++ u2.pathname, "")],
        [(u1.href, ⟨⟨t1, u1.href, []⟩, c.now⟩), (u2.href, ⟨⟨t2, u2.href, []⟩, c.now⟩)]⟩,
       [.awaitMark, .awaitMark] ++
         [.awaitMark, .awaitMark,
          .storeCheck ("/https/" ++ u1.host ++ u1.pathname) true, .awaitMark] ++
         [.awaitMark],
       .ok (applyEdits t2 [(fs2 + 2, e2 - 1,
         toFakeJs ("/https/" ++ u1.host ++ u1.pathname))])) := by
    have hx := transform_single c (f + 3) u2 t2 _ _ _ ⟨fs2, e2, u1.href⟩ _ hs2 TS2
    simpa using hx
  have L2 : loadFile c (f + 5) u2 none
      (⟨[("/https/" ++ u1.host ++ u1.pathname, "")],
        [(u1.href, ⟨⟨t1, u1.href, []⟩, c.now⟩)]⟩ : St) =
      (⟨setKey
          [("/https/" ++ u1.host ++ u1.pathname, ""),
           ("/https/" ++ u2.host ++ u2.pathname, "")]
          ("/https/" ++ u2.host ++ u2.pathname)
          (applyEdits t2 [(fs2 + 2, e2 - 1,
            toFakeJs ("/https/" ++ u1.host ++ u1.pathname))]),
        [(u1.href, ⟨⟨t1, u1.href, []⟩, c.now⟩), (u2.href, ⟨⟨t2, u2.href, []⟩, c.now⟩)]⟩,
       [.netFetch u2.href, .awaitMark] ++
         [.awaitMark, .storeCheck ("/https/" ++ u2.host ++ u2.pathname) false,
          .reserve ("/https/" ++ u2.host ++ u2.pathname)] ++
         ([.awaitMark, .awaitMark] ++
           [.awaitMark, .awaitMark,
            .storeCheck ("/https/" ++ u1.host ++ u1.pathname) true, .awaitMark] ++
           [.awaitMark]) ++
         [.awaitMark, .fill ("/https/" ++ u2.host ++ u2.pathname)
           (applyEdits t2 [(fs2 + 2, e2 - 1,
             toFakeJs ("/https/" ++ u1.host ++ u1.pathname))])],
       .ok ("/https/" ++ u2.host ++ u2.pathname)) := by
    have hx := loadFile_new c (f + 4) u2 none _ _ _ _ _ ⟨t2, u2⟩
      ("/https/" ++ u2.host ++ u2.pathname)
      (applyEdits t2 [(fs2 + 2, e2 - 1,
        toFakeJs ("/https/" ++ u1.host ++ u1.pathname))])
      f2 (by simpa using hfp2) (by simp [hasKey, hnep]) (by simpa [setKey, hnep] using T2)
    simpa [setKey, hnep] using hx
  have TS1 : transformSpecifier c (f + 6) u1 u2.href
      (⟨[("/https/" ++ u1.host ++ u1.pathname, "")],
        [(u1.href, ⟨⟨t1, u1.href, []⟩, c.now⟩)]⟩ : St) =
      (⟨[("/https/" ++ u1.host ++ u1.pathname, ""),
         ("/https/" ++ u2.host ++ u2.pathname,
          applyEdits t2 [(fs2 + 2, e2 - 1,
            toFakeJs ("/https/" ++ u1.host ++ u1.pathname))])],
        [(u1.href, ⟨⟨t1, u1.href, []⟩, c.now⟩), (u2.href, ⟨⟨t2, u2.href, []⟩, c.now⟩)]⟩,
       ([.netFetch u2.href, .awaitMark] ++
         [.awaitMark, .storeCheck ("/https/" ++ u2.host ++ u2.pathname) false,
          .reserve ("/https/" ++ u2.host ++ u2.pathname)] ++
         ([.awaitMark, .awaitMark] ++
           [.awaitMark, .awaitMark,
            .storeCheck ("/https/" ++ u1.host ++ u1.pathname) true, .awaitMark] ++
           [.awaitMark]) ++
         [.awaitMark, .fill ("/https/" ++ u2.host ++ u2.pathname)
           (applyEdits t2 [(fs2 + 2, e2 - 1,
             toFakeJs ("/https/" ++ u1.host ++ u1.pathname))])]) ++ [.awaitMark],
       .ok ("/https/" ++ u2.host ++ u2.pathname)) := by
    have hx := tspec_load_ok c (f + 5) u1 u2.href _ _ _ u2
      ("/https/" ++ u2.host ++ u2.pathname)
      (mapResolve_empty c hmap u1.href u2.href)
      (isBare_false_of_parse c u2.href u2 hpa2) hr21 L2
    simpa [setKey, hnep] using hx
  have hnep2 : (("/https/" ++ u2.host ++ u2.pathname) ==
      ("/https/" ++ u1.host ++ u1.pathname)) = false := by
    refine beq_eq_false_iff_ne.mpr ?_
    have := beq_eq_false_iff_ne.mp hnep
    exact fun hx => this hx.symm
  have T1 : transformSourceFile c (f + 7) u1 t1
      (⟨[("/https/" ++ u1.host ++ u1.pathname, "")],
        [(u1.href, ⟨⟨t1, u1.href, []⟩, c.now⟩)]⟩ : St) =
      (⟨[("/https/" ++ u1.host ++ u1.pathname, ""),
         ("/https/" ++ u2.host ++ u2.pathname,
          applyEdits t2 [(fs2 + 2, e2 - 1,
            toFakeJs ("/https/" ++ u1.host ++ u1.pathname))])],
        [(u1.href, ⟨⟨t1, u1.href, []⟩, c.now⟩), (u2.href, ⟨⟨t2, u2.href, []⟩, c.now⟩)]⟩,
       [.awaitMark, .awaitMark] ++
         (([.netFetch u2.href, .awaitMark] ++
           [.awaitMark, .storeCheck ("/https/" ++ u2.host ++ u2.pathname) false,
            .reserve ("/https/" ++ u2.host ++ u2.pathname)] ++
           ([.awaitMark, .awaitMark] ++
             [.awaitMark, .awaitMark,
              .storeCheck ("/https/" ++ u1.host ++ u1.pathname) true, .awaitMark] ++
             [.awaitMark]) ++
           [.awaitMark, .fill ("/https/" ++ u2.host ++ u2.pathname)
             (applyEdits t2 [(fs2 + 2, e2 - 1,
               toFakeJs ("/https/" ++ u1.host ++ u1.pathname))])]) ++ [.awaitMark]) ++
         [.awaitMark],
       .ok (applyEdits t1 [(fs1 + 2, e1 - 1,
         toFakeJs ("/https/" ++ u2.host ++ u2.pathname))])) := by
    have hx := transform_single c (f + 6) u1 t1 _ _ _ ⟨fs1, e1, u2.href⟩ _ hs1 TS1
    simpa using hx
  have L1 : loadFile c (f + 8) u1 none emptyS =
      (⟨[("/https/" ++ u1.host ++ u1.pathname,
          applyEdits t1 [(fs1 + 2, e1 - 1,
            toFakeJs ("/https/" ++ u2.host ++ u2.pathname))]),
         ("/https/" ++ u2.host ++ u2.pathname,
          applyEdits t2 [(fs2 + 2, e2 - 1,
            toFakeJs ("/https/" ++ u1.host ++ u1.pathname))])],
        [(u1.href, ⟨⟨t1, u1.href, []⟩, c.now⟩), (u2.href, ⟨⟨t2, u2.href, []⟩, c.now⟩)]⟩,
       [.netFetch u1.href, .awaitMark] ++
         [.awaitMark, .storeCheck ("/https/" ++ u1.host ++ u1.pathname) false,
          .reserve ("/https/" ++ u1.host ++ u1.pathname)] ++
         ([.awaitMark, .awaitMark] ++
           (([.netFetch u2.href, .awaitMark] ++
             [.awaitMark, .storeCheck ("/https/" ++ u2.host ++ u2.pathname) false,
              .reserve ("/https/" ++ u2.host ++ u2.pathname)] ++
             ([.awaitMark, .awaitMark] ++
               [.awaitMark, .awaitMark,
                .storeCheck ("/https/" ++ u1.host ++ u1.pathname) true, .awaitMark] ++
               [.awaitMark]) ++
             [.awaitMark, .fill ("/https/" ++ u2.host ++ u2.pathname)
               (applyEdits t2 [(fs2 + 2, e2 - 1,
                 toFakeJs ("/https/" ++ u1.host ++ u1.pathname))])]) ++ [.awaitMark]) ++
           [.awaitMark]) ++
         [.awaitMark, .fill ("/https/" ++ u1.host ++ u1.pathname)
           (applyEdits t1 [(fs1 + 2, e1 - 1,
             toFakeJs ("/https/" ++ u2.host ++ u2.pathname))])],
       .ok ("/https/" ++ u1.host ++ u1.pathname)) := by
    have hx := loadFile_new c (f + 7) u1 none emptyS _ _ _ _ ⟨t1, u1⟩
      ("/https/" ++ u1.host ++ u1.pathname)
      (applyEdits t1 [(fs1 + 2, e1 - 1,
        toFakeJs ("/https/" ++ u2.host ++ u2.pathname))])
      f1 (by simpa using hfp1) rfl (by simpa [setKey, hnep2] using T1)
    simpa [setKey, hnep2, emptyS] using hx
  rw [L1]
  refine ⟨rfl, ?_, ?_, ?_⟩
  · simp
  · simp [countFill_append, countFill, hnep2, beq_self_eq_true]
  · simp [countFill_append, countFill, hnep, beq_self_eq_true]

/-- Witness for C8: the concrete two-module cycle
`https://e.x/a.ts ↔ https://e.x/b.ts` loads at fuel 8, stores exactly
the two virtual paths, and fills each exactly once. -/
theorem c8_cyclic_imports_load_once_witness :
    (loadFile cycCtx 8 uHa none emptyS).2.2 =
      .ok ("/https/" ++ uHa.host ++ uHa.pathname) ∧
    ((loadFile cycCtx 8 uHa none emptyS).1.store).map Prod.fst =
      ["/https/" ++ uHa.host ++ uHa.pathname, "/https/" ++ uHb.host ++ uHb.pathname] ∧
    countFill (loadFile cycCtx 8 uHa none emptyS).2.1
      ("/https/" ++ uHa.host ++ uHa.pathname) = 1 ∧
    countFill (loadFile cycCtx 8 uHa none emptyS).2.1
      ("/https/" ++ uHb.host ++ uHb.pathname) = 1 := by
  exact c8_cyclic_imports_load_once cycCtx 0 uHa uHb
    "import \"https://e.x/b.ts\";" "import \"https://e.x/a.ts\";" 6 25 6 25
    (by decide) (by decide) (by decide) (by decide) (by decide) (by decide)
    (by decide) (by decide) (by decide) (by decide) (by decide) (by decide) (by decide)

/-- Any store holding the synthetic manifest answers `fileExists` for
`/package.json` positively: the name is neither a `jsx-runtime` alias
nor under the default-lib location, so `readFile` looks it up verbatim
and finds it. -/
theorem fileExists_pkg (store : List (String × String))
    (h : hasKey store "/package.json" = true) :
    fileExistsModel store defaultLibLoc "/package.json" = true := by
  have h1 : strEndsWith "/package.json" "/jsx-runtime" = false := by decide
  have h2 : strStartsWith "/package.json" defaultLibLoc = false := by decide
  have h3 := getKey_isSome_of_hasKey store "/package.json" h
  rcases hg : getKey store "/package.json" with _ | v
  · rw [hg] at h3
    simp at h3
  · simp [fileExistsModel, readFileModel, h1, h2, hg]

/-- C10: `createDenoProgram` writes the synthetic `/package.json`
manifest with content `\x7b "type": "module" \x7d` into the fresh
store before any library or entry file loads, `fileExists` answers
true for it at that point, and — the store being append-only — every
subsequent load preserves both the key and the positive `fileExists`
answer, even though no such file exists in the project. -/
theorem c10_package_json_present (c : Ctx) (f : Nat) (u : Url) (a : Option Url)
    (st : St) (h : hasKey st.store "/package.json" = true) :
    getKey initStore "/package.json" = some "\x7b \"type\": \"module\" \x7d" ∧
    fileExistsModel initStore defaultLibLoc "/package.json" = true ∧
    hasKey ((loadFile c f u a st).1.store) "/package.json" = true ∧
    fileExistsModel ((loadFile c f u a st).1.store) defaultLibLoc
      "/package.json" = true := by
  have hk : hasKey ((loadFile c f u a st).1.store) "/package.json" = true :=
    ((mpres_engine c f).1 u a st).1 "/package.json" h
  exact ⟨by decide, by decide, hk, fileExists_pkg _ hk⟩

/-- Witness for C10: starting from the initial store, a load of an
unresolvable URL keeps the manifest present and visible. -/
theorem c10_package_json_present_witness :
    getKey initStore "/package.json" = some "\x7b \"type\": \"module\" \x7d" ∧
    fileExistsModel initStore defaultLibLoc "/package.json" = true ∧
    hasKey ((loadFile baseCtx 1 uWeird none ⟨initStore, []⟩).1.store)
      "/package.json" = true ∧
    fileExistsModel ((loadFile baseCtx 1 uWeird none ⟨initStore, []⟩).1.store)
      defaultLibLoc "/package.json" = true :=
  c10_package_json_present baseCtx 1 uWeird none ⟨initStore, []⟩ (by decide)
